import Mathlib

/-!
Verification development for the agentic tool-use orchestration core of
`automation-chatbot-backend`: `ClaudeService.chat`, `ClaudeService._execute_tool`,
`ClaudeService._extract_workflow` (app/services/claude_service.py) and the SSE
`event_generator` of the `/chat` route (app/api/routes/n8n_chat.py).

The Python code is shallowly embedded: the provider (Anthropic client) is a
function from the call index to a scripted outcome, the MCP tool executor is a
function from tool name and input to an outcome, and the async generators are
pure functions returning the ordered list of effects (yielded chunks, provider
calls, backoff sleeps) they produce.
-/

/-- JSON values as produced by `json.loads` / consumed by `json.dumps`.
Objects are association lists in insertion order (Python `dict` preserves
insertion order; duplicate keys are collapsed keep-last at parse time).
Non-integer numerals are kept as their raw lexeme (`numRaw`); none of the
verified code inspects float values.  `NaN`/`Infinity` literals are not
modelled. -/
inductive Json where
  | null : Json
  | bool : Bool → Json
  | num : Int → Json
  | numRaw : String → Json
  | str : String → Json
  | arr : List Json → Json
  | obj : List (String × Json) → Json
  deriving Repr

mutual

def Json.beq : Json → Json → Bool
  | .null, .null => true
  | .bool a, .bool b => a = b
  | .num a, .num b => a = b
  | .numRaw a, .numRaw b => a = b
  | .str a, .str b => a = b
  | .arr xs, .arr ys => beqJsonList xs ys
  | .obj xs, .obj ys => beqJsonKvs xs ys
  | _, _ => false

def beqJsonList : List Json → List Json → Bool
  | [], [] => true
  | x :: xs, y :: ys => Json.beq x y && beqJsonList xs ys
  | _, _ => false

def beqJsonKvs : List (String × Json) → List (String × Json) → Bool
  | [], [] => true
  | (k, v) :: xs, (k', v') :: ys => k = k' && Json.beq v v' && beqJsonKvs xs ys
  | _, _ => false

end

mutual

theorem Json.beq_refl : ∀ a : Json, Json.beq a a = true
  | .null => rfl
  | .bool a => by simp [Json.beq]
  | .num a => by simp [Json.beq]
  | .numRaw a => by simp [Json.beq]
  | .str a => by simp [Json.beq]
  | .arr xs => by simp [Json.beq, beqJsonList_refl xs]
  | .obj xs => by simp [Json.beq, beqJsonKvs_refl xs]

theorem beqJsonList_refl : ∀ xs : List Json, beqJsonList xs xs = true
  | [] => rfl
  | x :: xs => by simp [beqJsonList, Json.beq_refl x, beqJsonList_refl xs]

theorem beqJsonKvs_refl : ∀ xs : List (String × Json), beqJsonKvs xs xs = true
  | [] => rfl
  | (k, v) :: xs => by simp [beqJsonKvs, Json.beq_refl v, beqJsonKvs_refl xs]

end

mutual

theorem Json.beq_eq : ∀ a b : Json, Json.beq a b = true → a = b
  | .null, .null, _ => rfl
  | .bool a, .bool b, h => by simpa [Json.beq] using h
  | .num a, .num b, h => by simpa [Json.beq] using h
  | .numRaw a, .numRaw b, h => by simpa [Json.beq] using h
  | .str a, .str b, h => by simpa [Json.beq] using h
  | .arr xs, .arr ys, h => by
      simp only [Json.beq] at h
      exact congrArg Json.arr (beqJsonList_eq xs ys h)
  | .obj xs, .obj ys, h => by
      simp only [Json.beq] at h
      exact congrArg Json.obj (beqJsonKvs_eq xs ys h)
  | .null, .bool _, h | .null, .num _, h | .null, .numRaw _, h | .null, .str _, h
  | .null, .arr _, h | .null, .obj _, h
  | .bool _, .null, h | .bool _, .num _, h | .bool _, .numRaw _, h | .bool _, .str _, h
  | .bool _, .arr _, h | .bool _, .obj _, h
  | .num _, .null, h | .num _, .bool _, h | .num _, .numRaw _, h | .num _, .str _, h
  | .num _, .arr _, h | .num _, .obj _, h
  | .numRaw _, .null, h | .numRaw _, .bool _, h | .numRaw _, .num _, h | .numRaw _, .str _, h
  | .numRaw _, .arr _, h | .numRaw _, .obj _, h
  | .str _, .null, h | .str _, .bool _, h | .str _, .num _, h | .str _, .numRaw _, h
  | .str _, .arr _, h | .str _, .obj _, h
  | .arr _, .null, h | .arr _, .bool _, h | .arr _, .num _, h | .arr _, .numRaw _, h
  | .arr _, .str _, h | .arr _, .obj _, h
  | .obj _, .null, h | .obj _, .bool _, h | .obj _, .num _, h | .obj _, .numRaw _, h
  | .obj _, .str _, h | .obj _, .arr _, h => by simp [Json.beq] at h

theorem beqJsonList_eq : ∀ xs ys : List Json, beqJsonList xs ys = true → xs = ys
  | [], [], _ => rfl
  | x :: xs, y :: ys, h => by
      simp only [beqJsonList, Bool.and_eq_true] at h
      rw [Json.beq_eq x y h.1, beqJsonList_eq xs ys h.2]
  | [], _ :: _, h | _ :: _, [], h => by simp [beqJsonList] at h

theorem beqJsonKvs_eq : ∀ xs ys : List (String × Json), beqJsonKvs xs ys = true → xs = ys
  | [], [], _ => rfl
  | (k, v) :: xs, (k', v') :: ys, h => by
      simp only [beqJsonKvs, Bool.and_eq_true] at h
      rw [show k = k' from by simpa using h.1.1, Json.beq_eq v v' h.1.2,
        beqJsonKvs_eq xs ys h.2]
  | [], _ :: _, h | _ :: _, [], h => by simp [beqJsonKvs] at h

end

instance : DecidableEq Json := fun a b =>
  if h : Json.beq a b = true then .isTrue (Json.beq_eq a b h)
  else .isFalse (fun he => h (he ▸ Json.beq_refl a))

/-- Four-digit lowercase hex, as in Python's `\uXXXX` escapes. -/
def hex4 (n : Nat) : String :=
  let d := fun (k : Nat) =>
    let v := n / 16 ^ k % 16
    if v < 10 then Char.ofNat (48 + v) else Char.ofNat (87 + v)
  String.mk [d 3, d 2, d 1, d 0]

/-- Escaping of one character in `json.dumps` output (default `ensure_ascii=True`;
astral code points would use surrogate pairs in Python, which we do not model —
no verified input contains them). -/
def dumpsEscape (c : Char) : String :=
  if c = '"' then "\\\""
  else if c = '\\' then "\\\\"
  else if c = '\n' then "\\n"
  else if c = '\t' then "\\t"
  else if c = '\r' then "\\r"
  else if c.toNat = 8 then "\\b"
  else if c.toNat = 12 then "\\f"
  else if c.toNat < 32 ∨ c.toNat > 126 then "\\u" ++ hex4 c.toNat
  else String.mk [c]

/-- Embedding of `json.dumps` of a string literal. -/
def dumpsStr (s : String) : String :=
  "\"" ++ String.join (s.data.map dumpsEscape) ++ "\""

/-- Python's default separators: `", "` between items, `": "` after keys. -/
def joinComma (parts : List String) : String :=
  String.intercalate ", " parts

mutual

/-- Embedding of `json.dumps` with Python's default options. -/
def Json.dumps : Json → String
  | .null => "null"
  | .bool true => "true"
  | .bool false => "false"
  | .num n => toString n
  | .numRaw s => s
  | .str s => dumpsStr s
  | .arr xs => "[" ++ joinComma (dumpsJsonList xs) ++ "]"
  | .obj kvs => "\x7b" ++ joinComma (dumpsJsonKvs kvs) ++ "\x7d"

def dumpsJsonList : List Json → List String
  | [] => []
  | x :: xs => Json.dumps x :: dumpsJsonList xs

def dumpsJsonKvs : List (String × Json) → List String
  | [] => []
  | (k, v) :: xs => (dumpsStr k ++ ": " ++ Json.dumps v) :: dumpsJsonKvs xs

end

/-- Embedding of `isinstance(x, dict)`. -/
def Json.isObj : Json → Bool
  | .obj _ => true
  | _ => false

/-- Embedding of `key in d` for a parsed JSON object (false on non-objects; the code always
guards with `isinstance(..., dict)` first). -/
def Json.hasKey (j : Json) (k : String) : Bool :=
  match j with
  | .obj kvs => kvs.any (fun kv => kv.1 = k)
  | _ => false

/-- Embedding of `d.get(key, default)` on a parsed JSON object.  Objects built by the parser
have unique keys, so first-match lookup agrees with Python `dict` lookup. -/
def Json.dictGet (j : Json) (k : String) (dflt : Json) : Json :=
  match j with
  | .obj kvs =>
    match kvs.find? (fun kv => kv.1 = k) with
    | some kv => kv.2
    | none => dflt
  | _ => dflt

/-- Python truthiness of the JSON values that can reach an `if value:` test in
the verified code (`numRaw` only arises for float literals; a `0.0` artifact
value cannot reach a truthiness test because only nonempty dicts are tested). -/
def Json.pyTruthy : Json → Bool
  | .null => false
  | .bool b => b
  | .num n => n ≠ 0
  | .numRaw _ => true
  | .str s => ¬ s.isEmpty
  | .arr xs => ¬ xs.isEmpty
  | .obj kvs => ¬ kvs.isEmpty

/-- Embedding of `len(x)` / iteration over `x`: lists yield their elements, strings their
characters (each a 1-character string), dicts their keys; every other JSON
value raises `TypeError` (`none`).  For JSON values, `len` succeeds exactly
when iteration does. -/
def Json.pyIter : Json → Option (List Json)
  | .arr xs => some xs
  | .str s => some (s.data.map (fun c => Json.str (String.mk [c])))
  | .obj kvs => some (kvs.map (fun kv => Json.str kv.1))
  | _ => none

/-! ### `json.loads`

A recursive-descent parser for the JSON grammar as accepted by Python's strict
`json.loads`: standard whitespace, objects / arrays / strings / numbers /
literals; raw control characters inside strings are rejected; `\uXXXX` escapes
are decoded (surrogate pairs are not modelled; no verified input contains
them).  Duplicate object keys keep the last value at the first key's position,
as Python `dict` insertion does.  Recursion is by fuel; `json_loads` supplies
fuel ample for its input, so the parser is total and executable. -/

/-- JSON whitespace (RFC 8259 / Python `json`): space, tab, LF, CR. -/
def jsonWs (c : Char) : Bool :=
  c = ' ' ∨ c = '\t' ∨ c = '\n' ∨ c = '\r'

def skipWs (cs : List Char) : List Char :=
  cs.dropWhile jsonWs

def hexVal (c : Char) : Option Nat :=
  if '0' ≤ c ∧ c ≤ '9' then some (c.toNat - 48)
  else if 'a' ≤ c ∧ c ≤ 'f' then some (c.toNat - 87)
  else if 'A' ≤ c ∧ c ≤ 'F' then some (c.toNat - 55)
  else none

def parseHex4 : List Char → Option (Nat × List Char)
  | a :: b :: c :: d :: rest => do
    let va ← hexVal a
    let vb ← hexVal b
    let vc ← hexVal c
    let vd ← hexVal d
    pure (va * 4096 + vb * 256 + vc * 16 + vd, rest)
  | _ => none

/-- Body of a JSON string literal, after the opening quote. -/
def parseStringBody : Nat → List Char → Option (List Char × List Char)
  | 0, _ => none
  | _, [] => none
  | fuel + 1, c :: rest =>
    if c = '"' then some ([], rest)
    else if c = '\\' then
      match rest with
      | [] => none
      | e :: rest2 =>
        let dec : Option (Char × List Char) :=
          if e = '"' then some ('"', rest2)
          else if e = '\\' then some ('\\', rest2)
          else if e = '/' then some ('/', rest2)
          else if e = 'b' then some (Char.ofNat 8, rest2)
          else if e = 'f' then some (Char.ofNat 12, rest2)
          else if e = 'n' then some ('\n', rest2)
          else if e = 'r' then some ('\r', rest2)
          else if e = 't' then some ('\t', rest2)
          else if e = 'u' then
            match parseHex4 rest2 with
            | some (v, rest3) => some (Char.ofNat v, rest3)
            | none => none
          else none
        match dec with
        | some (ch, rest') =>
          match parseStringBody fuel rest' with
          | some (tail, rem) => some (ch :: tail, rem)
          | none => none
        | none => none
    else if c.toNat < 32 then none  -- strict mode rejects raw control characters
    else
      match parseStringBody fuel rest with
      | some (tail, rem) => some (c :: tail, rem)
      | none => none

def isDigit (c : Char) : Bool := '0' ≤ c ∧ c ≤ '9'

def digitsToNat (ds : List Char) : Nat :=
  ds.foldl (fun acc c => acc * 10 + (c.toNat - 48)) 0

/-- JSON number grammar: `-? (0 | [1-9][0-9]*) frac? exp?`.  Integer lexemes
become `Json.num`; lexemes with a fraction or exponent keep their raw text as
`Json.numRaw` (float values are never inspected by the verified code). -/
def parseNumber (cs : List Char) : Option (Json × List Char) :=
  let (neg, cs1) := match cs with
    | '-' :: t => (true, t)
    | _ => (false, cs)
  let intPart := cs1.takeWhile isDigit
  let rest1 := cs1.dropWhile isDigit
  if intPart.isEmpty then none
  else if intPart.length > 1 ∧ intPart.headD '0' = '0' then none  -- no leading zeros
  else
    let (fracPart, rest2) := match rest1 with
      | '.' :: t =>
        let ds := t.takeWhile isDigit
        if ds.isEmpty then ([], rest1) else ('.' :: ds, t.dropWhile isDigit)
      | _ => ([], rest1)
    let (expPart, rest3) := match rest2 with
      | e :: t =>
        if e = 'e' ∨ e = 'E' then
          let (sgn, t2) := match t with
            | s :: t' => if s = '+' ∨ s = '-' then ([s], t') else ([], t)
            | [] => ([], t)
          let ds := t2.takeWhile isDigit
          if ds.isEmpty then ([], rest2) else (e :: (sgn ++ ds), t2.dropWhile isDigit)
        else ([], rest2)
      | [] => ([], rest2)
    if fracPart.isEmpty ∧ expPart.isEmpty then
      let n : Int := Int.ofNat (digitsToNat intPart)
      some (Json.num (if neg then -n else n), rest1)
    else
      let lexeme := (if neg then ['-'] else []) ++ intPart ++ fracPart ++ expPart
      some (Json.numRaw (String.mk lexeme), rest3)

/-- Insertion with Python `dict` duplicate-key semantics: an existing key keeps
its position and takes the new value; a new key is appended. -/
def objUpdate : List (String × Json) → String → Json → List (String × Json)
  | [], k, v => [(k, v)]
  | (k', v') :: rest, k, v =>
    if k' = k then (k', v) :: rest else (k', v') :: objUpdate rest k v

mutual

/-- Parse one JSON value starting at the head of `cs` (no leading whitespace). -/
def parseValue : Nat → List Char → Option (Json × List Char)
  | 0, _ => none
  | _, [] => none
  | fuel + 1, c :: rest =>
    if c = '\x7b' then
      let cs1 := skipWs rest
      match cs1 with
      | '\x7d' :: rest' => some (Json.obj [], rest')
      | _ => parseMembers fuel [] cs1
    else if c = '[' then
      let cs1 := skipWs rest
      match cs1 with
      | ']' :: rest' => some (Json.arr [], rest')
      | _ => parseElements fuel [] cs1
    else if c = '"' then
      match parseStringBody (rest.length + 1) rest with
      | some (body, rem) => some (Json.str (String.mk body), rem)
      | none => none
    else if c = 't' then
      match rest with
      | 'r' :: 'u' :: 'e' :: rest' => some (Json.bool true, rest')
      | _ => none
    else if c = 'f' then
      match rest with
      | 'a' :: 'l' :: 's' :: 'e' :: rest' => some (Json.bool false, rest')
      | _ => none
    else if c = 'n' then
      match rest with
      | 'u' :: 'l' :: 'l' :: rest' => some (Json.null, rest')
      | _ => none
    else parseNumber (c :: rest)

/-- Members of an object, positioned at the start of a key (whitespace already
skipped); `acc` holds members parsed so far. -/
def parseMembers : Nat → List (String × Json) → List Char → Option (Json × List Char)
  | 0, _, _ => none
  | fuel + 1, acc, cs =>
    match cs with
    | '"' :: rest =>
      match parseStringBody (rest.length + 1) rest with
      | some (key, rem) =>
        match skipWs rem with
        | ':' :: rest2 =>
          match parseValue fuel (skipWs rest2) with
          | some (v, rem2) =>
            let acc := objUpdate acc (String.mk key) v
            match skipWs rem2 with
            | ',' :: rest3 => parseMembers fuel acc (skipWs rest3)
            | '\x7d' :: rest3 => some (Json.obj acc, rest3)
            | _ => none
          | none => none
        | _ => none
      | none => none
    | _ => none

/-- Elements of an array, positioned at the start of a value. -/
def parseElements : Nat → List Json → List Char → Option (Json × List Char)
  | 0, _, _ => none
  | fuel + 1, acc, cs =>
    match parseValue fuel cs with
    | some (v, rem) =>
      match skipWs rem with
      | ',' :: rest => parseElements fuel (acc ++ [v]) (skipWs rest)
      | ']' :: rest => some (Json.arr (acc ++ [v]), rest)
      | _ => none
    | none => none

end

/-- Embedding of `json.loads(s)`: parse one document, requiring full consumption (Python
raises `Extra data` otherwise); `none` models `json.JSONDecodeError`. -/
def json_loads (s : String) : Option Json :=
  match parseValue (2 * s.length + 2) (skipWs s.data) with
  | some (v, rest) => if skipWs rest = [] then some v else none
  | none => none

/-! ### String helpers (`str.find`, slicing, `str.strip`) -/

/-- Embedding of `haystack.find(needle)` from a starting offset, scanning one position at a
time (first match wins); `none` models Python's `-1`. -/
def findSubAux (pat : List Char) : Nat → List Char → Option Nat
  | _, [] => if pat.isEmpty then some 0 else none
  | i, c :: rest =>
    if pat.isPrefixOf (c :: rest) then some i else
      match findSubAux pat (i + 1) rest with
      | some j => some j
      | none => none

/-- Embedding of `text.find(pat)`: index of the first occurrence. -/
def findSub (cs pat : List Char) : Option Nat :=
  findSubAux pat 0 cs

/-- Embedding of `text.find(pat, start)`. -/
def findSubFrom (cs pat : List Char) (start : Nat) : Option Nat :=
  match findSub (cs.drop start) pat with
  | some j => some (start + j)
  | none => none

/-- Embedding of `pat in text`. -/
def containsSub (cs pat : List Char) : Bool :=
  (findSub cs pat).isSome

/-- Python `str.strip()` whitespace: space, tab, LF, CR, vertical tab, form feed. -/
def pySpace (c : Char) : Bool :=
  c = ' ' ∨ c = '\t' ∨ c = '\n' ∨ c = '\r' ∨ c.toNat = 11 ∨ c.toNat = 12

/-- Embedding of `s.strip()`. -/
def pyStrip (cs : List Char) : List Char :=
  ((cs.dropWhile pySpace).reverse.dropWhile pySpace).reverse

/-! ### The fallback scan of `_extract_workflow`

`re.finditer(r'\{[^{}]*(?:\{[^{}]*\}[^{}]*)*\}', text, re.DOTALL)`: the pattern
matches an outer brace pair whose body consists of non-brace runs and complete
depth-1 inner brace pairs (inner pairs contain no braces), so a match ends at
the first closing brace at outer depth and fails outright on nesting deeper
than one inner level.  `[^{}]*` can never trade characters with `\{`/`\}`, so
backtracking is vacuous and the scan below is exactly the regex's behaviour:
try each position left to right (the pattern can only start at `{`), and on a
match continue after its end. -/

/-- Scan the body of a candidate match.  `inInner` is true inside a depth-1
inner pair; `acc` holds the consumed characters in reverse.  Returns the
matched lexeme and the remaining text, or `none` if the pattern cannot match
from this start (unbalanced, or nesting deeper than the pattern allows). -/
def reScanBody (inInner : Bool) (acc : List Char) : List Char → Option (List Char × List Char)
  | [] => none
  | c :: rest =>
    if c = '\x7d' then
      if inInner then reScanBody false (c :: acc) rest
      else some ((c :: acc).reverse, rest)
    else if c = '\x7b' then
      if inInner then none else reScanBody true (c :: acc) rest
    else reScanBody inInner (c :: acc) rest

/-- All matches of the pattern, left to right, non-overlapping, resuming after
each match's end — the sequence `re.finditer` yields.  Fuel bounds the scan;
`reFindAll` supplies the text length, which suffices because every step
consumes at least one character. -/
def reFindAllAux : Nat → List Char → List (List Char)
  | 0, _ => []
  | _, [] => []
  | fuel + 1, c :: rest =>
    if c = '\x7b' then
      match reScanBody false [c] rest with
      | some (m, rest') => m :: reFindAllAux fuel rest'
      | none => reFindAllAux fuel rest
    else reFindAllAux fuel rest

def reFindAll (cs : List Char) : List (List Char) :=
  reFindAllAux cs.length cs

/-- The candidate lexemes the fallback scan of `_extract_workflow` attempts,
in the order the code attempts them. -/
def candidatesOf (text : String) : List String :=
  (reFindAll text.data).map String.mk

/-! ### `ClaudeService._extract_workflow` -/

/-- The fallback loop body: `json.loads` each regex match in order, accepting
the first parse that is a dict containing `"nodes"`. -/
def tryCandidates : List (List Char) → Option Json
  | [] => none
  | c :: rest =>
    match json_loads (String.mk c) with
    | some w => if w.isObj ∧ w.hasKey "nodes" then some w else tryCandidates rest
    | none => tryCandidates rest

/-- The ```` ```json ```` fenced-block branch of `_extract_workflow`: only the
first fence is considered, an unterminated fence runs to the end of the text,
the contents are stripped, and the parse is accepted only when it is a dict
containing `"nodes"`. -/
def fencedExtract (cs : List Char) : Option Json :=
  match findSub cs ("```json".data) with
  | some i =>
    match json_loads (String.mk (pyStrip ((cs.drop (i + 7)).take
        ((match findSubFrom cs ("```".data) (i + 7) with
          | some e => e
          | none => cs.length) - (i + 7))))) with
    | some w => if w.isObj ∧ w.hasKey "nodes" then some w else none
    | none => none
  | none => none

/-- Embedding of `ClaudeService._extract_workflow(text)`: the fenced-block branch first;
otherwise the regex fallback scan over the raw text, guarded by
`"{" in text and "}" in text and "nodes" in text`. -/
def extract_workflow (text : String) : Option Json :=
  match fencedExtract text.data with
  | some w => some w
  | none =>
    if containsSub text.data ['\x7b'] ∧ containsSub text.data ['\x7d'] ∧
        containsSub text.data ("nodes".data) then
      tryCandidates (reFindAll text.data)
    else none

/-! ### Data model of `ClaudeService.chat`

Message content blocks as the dicts the code builds.  A `toolResult` block
carries the optional `is_error` key as an `Option Bool`; the code never sets
that key, so every block it appends has `isError = none`. -/

inductive Block where
  | text : String → Block
  | toolUse : (id : String) → (name : String) → (input : List (String × Json)) → Block
  | toolResult : (toolUseId : String) → (content : String) → (isError : Option Bool) → Block
  deriving Repr, DecidableEq

/-- Embedding of `content` of a message dict: the plain string of a user prompt, or a list
of content blocks. -/
inductive MsgContent where
  | str : String → MsgContent
  | blocks : List Block → MsgContent
  deriving Repr, DecidableEq

structure Msg where
  role : String
  content : MsgContent
  deriving Repr, DecidableEq

/-- The `Dict` chunks the `chat` async generator yields. -/
inductive Chunk where
  | message : String → Chunk
  | toolUse : (toolName : String) → (toolInput : List (String × Json)) → Chunk
  | toolResult : (toolName : String) → (result : String) → Chunk
  | workflowClear : Chunk
  | workflowNode : (node : Json) → (index : Nat) → (total : Nat) → Chunk
  | workflow : Json → Chunk
  | error : String → Chunk
  deriving Repr, DecidableEq

/-- One effect of the generator: a yielded chunk, a provider API call
(`self.client.messages.create`), a backoff sleep (`asyncio.sleep(retry_delay)`,
whole seconds), or the cosmetic 0.05 s pause after each streamed node. -/
inductive Ev where
  | chunk : Chunk → Ev
  | apiCall : Ev
  | sleep : Nat → Ev
  | pause : Ev
  deriving Repr, DecidableEq

/-- A content block of a provider response (`anthropic.types`): the code
handles `TextBlock` and `ToolUseBlock` and ignores any other block type. -/
inductive RespBlock where
  | text : String → RespBlock
  | toolUse : (id : String) → (name : String) → (input : List (String × Json)) → RespBlock
  deriving Repr, DecidableEq

structure ProviderResponse where
  content : List RespBlock
  stopReason : String
  deriving Repr, DecidableEq

/-- Outcome of one `messages.create` call: a response, a `RateLimitError`, or
any other exception (with its `str(e)`). -/
inductive ProviderResult where
  | ok : ProviderResponse → ProviderResult
  | rateLimit : String → ProviderResult
  | err : String → ProviderResult
  deriving Repr, DecidableEq

/-- The provider is scripted as a function from the index of the API call
(counting every attempt, retries included) to its outcome. -/
abbrev Provider := Nat → ProviderResult

/-- Outcome of one MCP client method call inside `_execute_tool`'s `try`:
a result value (serialized with `json.dumps`) or a raised exception. -/
inductive ToolOutcome where
  | ok : Json → ToolOutcome
  | exc : String → ToolOutcome
  deriving Repr, DecidableEq

abbrev ToolExec := String → List (String × Json) → ToolOutcome

/-! ### `ClaudeService._execute_tool` and key conversion -/

/-- The keys of `method_map`. -/
def knownTools : List String :=
  ["search_nodes", "get_node_essentials", "validate_workflow", "search_templates",
   "get_template", "n8n_create_workflow", "n8n_list_workflows", "n8n_get_workflow",
   "n8n_execute_workflow"]

/-- Embedding of `key_map.get(key, key)`. -/
def keyMap (k : String) : String :=
  if k = "includeExamples" then "include_examples"
  else if k = "nodeType" then "node_type"
  else if k = "templateId" then "template_id"
  else if k = "workflowId" then "workflow_id"
  else k

/-- Embedding of `ClaudeService._convert_keys_to_snake_case`: rebuild the dict with renamed
keys (`result[new_key] = value` in a fresh dict, so colliding renamed keys
keep the last value). -/
def convert_keys_to_snake_case (data : List (String × Json)) : List (String × Json) :=
  data.foldl (fun acc kv => objUpdate acc (keyMap kv.1) kv.2) []

/-- Embedding of `ClaudeService._execute_tool`: unknown tools and raised exceptions both
come back as a serialized `{"error": ...}` string; the method never raises. -/
def execute_tool (tex : ToolExec) (toolName : String) (toolInput : List (String × Json)) : String :=
  if knownTools.contains toolName then
    match tex toolName (convert_keys_to_snake_case toolInput) with
    | .ok result => result.dumps
    | .exc e => (Json.obj [("error", Json.str e)]).dumps
  else (Json.obj [("error", Json.str ("Unknown tool: " ++ toolName))]).dumps

/-! ### The `chat` generator -/

/-- The running state of one `chat` invocation: the effects produced so far,
the message list (`messages` aliases the caller's history when that is
truthy), the accumulated assistant text, and the number of API calls made so
far (indexing the scripted provider). -/
structure ChatState where
  trace : List Ev
  messages : List Msg
  accumulated : String
  callIdx : Nat
  deriving Repr, DecidableEq

def ChatState.emit (st : ChatState) (e : Ev) : ChatState :=
  { st with trace := st.trace ++ [e] }

def ChatState.emitChunk (st : ChatState) (c : Chunk) : ChatState :=
  st.emit (.chunk c)

/-- Result of one `chat` invocation: the effect trace, the final message list,
whether the generator escaped with an exception (the label stands for
`str(e)` of the raised `TypeError`/`AttributeError`), and whether `messages`
aliased the caller's `conversation_history` list (so the appends above mutated
the caller's object). -/
structure ChatOut where
  trace : List Ev
  messages : List Msg
  raised : Option String
  aliasedHistory : Bool
  deriving Repr, DecidableEq

def maxIterations : Nat := 15
def maxRetries : Nat := 3
def initialRetryDelay : Nat := 2

/-- Embedding of `chat`'s fixed iteration-limit error message. -/
def iterationLimitMsg : String :=
  "Maximum conversation iterations reached. Please try rephrasing your request."

/-- Embedding of `chat`'s fixed rate-limit-exhausted error message (the leading warning
emoji of the literal is omitted). -/
def rateLimitMsg : String :=
  "Rate limit exceeded. Please wait a moment and try again. The API is experiencing high demand."

/-- The user-visible notice yielded before each backoff sleep. -/
def retryNotice (retryDelay : Nat) : String :=
  "\n\n_Experiencing high demand, retrying in " ++ toString retryDelay ++ " seconds..._\n\n"

/-- The API-call bookkeeping of one attempt: record the call and advance the
script index. -/
def ChatState.afterCall (st : ChatState) : ChatState :=
  ChatState.mk (st.trace ++ [Ev.apiCall]) st.messages st.accumulated (st.callIdx + 1)

/-- The retry `for` loop around `self.client.messages.create`: `remaining` is
`max_retries - retry`; the last attempt's `RateLimitError` and any other
exception yield an error chunk and make `chat` return (`none`). -/
def callWithRetry (provider : Provider) : Nat → Nat → ChatState → ChatState × Option ProviderResponse
  | 0, _, st => (st, none)  -- unreachable from `maxRetries > 0`: every attempt breaks or returns
  | remaining + 1, retryDelay, st =>
    let r := provider st.callIdx
    let st := st.afterCall
    match r with
    | .ok resp => (st, some resp)
    | .rateLimit _ =>
      if remaining > 0 then
        let st := st.emitChunk (.message (retryNotice retryDelay))
        let st := st.emit (.sleep retryDelay)
        callWithRetry provider remaining (retryDelay * 2) st
      else (st.emitChunk (.error rateLimitMsg), none)
    | .err e =>
      (st.emitChunk (.error ("Error communicating with Claude: " ++ e)), none)

/-- The `for block in response.content` loop.  `ac` is `assistant_content`.
Each tool-use block yields `tool_use` and `tool_result` chunks and appends the
assistant message (all blocks so far) followed by the user message holding the
tool result; the dict the code appends has no `is_error` key (`isError =
none`). -/
def processBlocks (tex : ToolExec) : List RespBlock → List Block → ChatState → ChatState
  | [], _, st => st
  | .text t :: rest, ac, st =>
    let st := { st with accumulated := st.accumulated ++ t }
    let st := st.emitChunk (.message t)
    processBlocks tex rest (ac ++ [Block.text t]) st
  | .toolUse id name input :: rest, ac, st =>
    let st := st.emitChunk (.toolUse name input)
    let ac := ac ++ [Block.toolUse id name input]
    let result := execute_tool tex name input
    let st := st.emitChunk (.toolResult name result)
    let st := { st with messages := st.messages ++
      [⟨"assistant", .blocks ac⟩,
       ⟨"user", .blocks [Block.toolResult id result none]⟩] }
    processBlocks tex rest [] st

/-- The per-node streaming loop of the `end_turn` branch.  The log line
`node.get('name')` is evaluated before each yield and raises `AttributeError`
when the element is not a dict, escaping the generator. -/
def streamNodes (workflow : Json) : List Json → Nat → Nat → ChatState → ChatOut
  | [], _, _, st =>
    let st := st.emitChunk (.workflow workflow)
    ⟨st.trace, st.messages, none, false⟩
  | node :: rest, index, total, st =>
    match node with
    | .obj kvs =>
      let st := st.emitChunk (.workflowNode (.obj kvs) index total)
      let st := st.emit .pause
      streamNodes workflow rest (index + 1) total st
    | _ => ⟨st.trace, st.messages, some "AttributeError", false⟩

/-- The `end_turn` branch: extract a workflow from the accumulated text; if one
is found, the log line `len(workflow.get('nodes', []))` is evaluated first
(raising `TypeError` on a non-sized value, before any artifact chunk), then
`workflow_clear`, the per-node chunks, and the full `workflow` chunk are
yielded. -/
def endTurnFinish (st : ChatState) : ChatOut :=
  match extract_workflow st.accumulated with
  | some workflow =>
    if workflow.pyTruthy then
      match (workflow.dictGet "nodes" (Json.arr [])).pyIter with
      | none => ⟨st.trace, st.messages, some "TypeError", false⟩
      | some nodes =>
        let st := st.emitChunk .workflowClear
        streamNodes workflow nodes 0 nodes.length st
    else ⟨st.trace, st.messages, none, false⟩
  | none => ⟨st.trace, st.messages, none, false⟩

/-- The `while iteration < max_iterations` loop; `rem` is
`max_iterations - iteration` (rate-limit retries do not consume iterations).
When the loop exhausts, the iteration-limit error chunk is yielded. -/
def chatLoop (provider : Provider) (tex : ToolExec) : Nat → ChatState → ChatOut
  | 0, st =>
    let st := st.emitChunk (.error iterationLimitMsg)
    ⟨st.trace, st.messages, none, false⟩
  | rem + 1, st =>
    match callWithRetry provider maxRetries initialRetryDelay st with
    | (st, none) => ⟨st.trace, st.messages, none, false⟩
    | (st, some resp) =>
      let st := processBlocks tex resp.content [] st
      if resp.stopReason = "end_turn" then endTurnFinish st
      else if resp.stopReason = "tool_use" then chatLoop provider tex rem st
      else if resp.stopReason = "max_tokens" then
        let st := st.emitChunk (.message "\n\n[Response truncated - maximum length reached]")
        ⟨st.trace, st.messages, none, false⟩
      else ⟨st.trace, st.messages, none, false⟩  -- unknown stop reason: silent return

/-- Embedding of `messages = conversation_history or []`: `or` returns the left operand
when it is truthy, so a non-`None`, nonempty history list is aliased and the
appends below mutate the caller's list; `None` or `[]` give a fresh list. -/
def historyTarget (conversationHistory : Option (List Msg)) : List Msg × Bool :=
  match conversationHistory with
  | none => ([], false)
  | some l => if l.isEmpty then ([], false) else (l, true)

/-- Embedding of `ClaudeService.chat(user_message, conversation_history)`: append the user
message, then run the tool-use loop. -/
def chat (provider : Provider) (tex : ToolExec) (userMessage : String)
    (conversationHistory : Option (List Msg)) : ChatOut :=
  let (initial, aliased) := historyTarget conversationHistory
  let st : ChatState := ⟨[], initial ++ [⟨"user", .str userMessage⟩], "", 0⟩
  let out := chatLoop provider tex maxIterations st
  { out with aliasedHistory := aliased }

/-! ### The SSE `event_generator` of `POST /chat` (app/api/routes/n8n_chat.py)

The generator forwards the service's chunks as typed SSE events.  Database
persistence (conversations/messages tables) is wrapped in its own
`try/except` blocks that swallow every failure and is therefore modelled as a
no-op.  A `workflow` chunk is stored and sent only after the service stream
completes; an exception escaping the service generator is caught and turned
into a final `Stream error` event, skipping the `done` event. -/

inductive SSE where
  | start : SSE
  | message : String → SSE
  | toolUse : (toolName : String) → (toolInput : List (String × Json)) → SSE
  | toolResult : (toolName : String) → (success : Bool) → SSE
  | workflowClear : SSE
  | workflowNode : (node : Json) → (index : Nat) → (total : Nat) → SSE
  | workflow : Json → SSE
  | error : String → SSE
  | done : SSE
  deriving Repr, DecidableEq

/-- The SSE events one service chunk produces inside the `async for` body.
A `tool_result` chunk is always forwarded with `"success": True`; a
`workflow` chunk is stored, not forwarded. -/
def translateChunk : Chunk → List SSE
  | .message t => [.message t]
  | .toolUse name input => [.toolUse name input]
  | .toolResult name _ => [.toolResult name true]
  | .workflowClear => [.workflowClear]
  | .workflowNode n i tot => [.workflowNode n i tot]
  | .workflow _ => []
  | .error m => [.error m]

/-- The chunk of an effect, when it is one. -/
def Ev.chunkOf : Ev → Option Chunk
  | .chunk c => some c
  | _ => none

/-- The chunks the `chat` generator yielded, in order. -/
def chatChunks (out : ChatOut) : List Chunk :=
  out.trace.filterMap Ev.chunkOf

/-- Embedding of `workflow_data` after the `async for` loop: the last stored `workflow`
chunk content (the service yields at most one). -/
def lastWorkflow (chunks : List Chunk) : Option Json :=
  chunks.foldl (fun acc c => match c with | .workflow w => some w | _ => acc) none

/-- Embedding of `event_generator`: `start` first; the forwarded chunk events; then, if the
service raised, a single trailing `Stream error` event — otherwise the stored
workflow (if truthy) and the `done` event. -/
def event_generator (out : ChatOut) : List SSE :=
  let chunks := chatChunks out
  let body := chunks.flatMap translateChunk
  match out.raised with
  | some e => SSE.start :: body ++ [SSE.error ("Stream error: " ++ e)]
  | none =>
    let tail := match lastWorkflow chunks with
      | some w => if w.pyTruthy then [SSE.workflow w] else []
      | none => []
    SSE.start :: body ++ tail ++ [SSE.done]

/-! ### Observations over traces and event streams -/

def Ev.isApiCall : Ev → Bool
  | .apiCall => true
  | _ => false

def Chunk.isErrorChunk : Chunk → Bool
  | .error _ => true
  | _ => false

/-- Artifact chunks: `workflow_clear`, `workflow_node`, `workflow`. -/
def Chunk.isArtifactChunk : Chunk → Bool
  | .workflowClear => true
  | .workflowNode .. => true
  | .workflow _ => true
  | _ => false

def Ev.isErrorChunkEv : Ev → Bool
  | .chunk c => c.isErrorChunk
  | _ => false

def Ev.isArtifactEv : Ev → Bool
  | .chunk c => c.isArtifactChunk
  | _ => false

/-- Chunk kinds `processBlocks` can yield: plain content, never an error, an
artifact event or an API call. -/
def Ev.isContentEv : Ev → Bool
  | .chunk (.message _) => true
  | .chunk (.toolUse ..) => true
  | .chunk (.toolResult ..) => true
  | _ => false

def countApiCalls (tr : List Ev) : Nat :=
  (tr.filter Ev.isApiCall).length

def countErrorChunks (tr : List Ev) : Nat :=
  (tr.filter Ev.isErrorChunkEv).length

/-- The backoff sleep durations of a trace, in order. -/
def traceWaits (tr : List Ev) : List Nat :=
  tr.filterMap fun e =>
    match e with
    | .sleep n => some n
    | _ => none

/-- Once an artifact chunk has been emitted, no later provider call occurs:
the artifact events belong to the terminal `end_turn` turn. -/
def noCallAfterArtifact : List Ev → Bool
  | [] => true
  | e :: rest =>
    if e.isArtifactEv then rest.all (fun x => ¬ x.isApiCall) else noCallAfterArtifact rest

def SSE.isError : SSE → Bool
  | .error _ => true
  | _ => false

def hasErrorSSE (evts : List SSE) : Bool :=
  evts.any SSE.isError

def countDone (evts : List SSE) : Nat :=
  (evts.filter (fun e => e = SSE.done)).length

def SSE.isTerminal : SSE → Bool
  | .done => true
  | .error _ => true
  | _ => false

/-- The event-ordering property claimed of a stream: `Start` first, exactly
one terminal event (`Done`/`Error`), and it is the last event. -/
def terminalUniqueLast (evts : List SSE) : Bool :=
  (evts.head? = some SSE.start) &&
  (evts.filter SSE.isTerminal).length = 1 &&
  (match evts.getLast? with
   | some e => e.isTerminal
   | none => false)

def countWorkflowNodeSSE (evts : List SSE) : Nat :=
  (evts.filter fun e =>
    match e with
    | .workflowNode .. => true
    | _ => false).length

/-- The id of a tool-use block. -/
def Block.useId? : Block → Option String
  | .toolUse id _ _ => some id
  | _ => none

/-- The referenced id of a tool-result block. -/
def Block.resultId? : Block → Option String
  | .toolResult id _ _ => some id
  | _ => none

/-- Tool-use ids appearing in a message's content blocks. -/
def msgToolUseIds (m : Msg) : List String :=
  match m.content with
  | .blocks bs => bs.filterMap Block.useId?
  | .str _ => []

/-- Ids referenced by the tool-result blocks of a message. -/
def msgToolResultIds (m : Msg) : List String :=
  match m.content with
  | .blocks bs => bs.filterMap Block.resultId?
  | .str _ => []

/-- Every tool-result block references a tool-use id from a strictly earlier
message of the list (`seen` accumulates the tool-use ids of scanned
messages). -/
def resolvedAux (seen : List String) : List Msg → Bool
  | [] => true
  | m :: rest =>
    (msgToolResultIds m).all seen.contains && resolvedAux (seen ++ msgToolUseIds m) rest

def toolResultsResolved (msgs : List Msg) : Bool :=
  resolvedAux [] msgs

def initialHistory (h : Option (List Msg)) : List Msg :=
  match h with
  | none => []
  | some l => l

/-- All tool-result blocks of a message list. -/
def msgsToolResultBlocks (msgs : List Msg) : List Block :=
  msgs.flatMap fun m =>
    match m.content with
    | .blocks bs => bs.filter fun b =>
        match b with
        | .toolResult .. => true
        | _ => false
    | .str _ => []

/-- Does any appended tool-result block carry `is_error: true`? -/
def anyToolResultFlagged (msgs : List Msg) : Bool :=
  (msgsToolResultBlocks msgs).any fun b =>
    match b with
    | .toolResult _ _ (some true) => true
    | _ => false

/-- The per-node artifact chunk events of the `end_turn` branch, in document
order, each followed by the cosmetic pause. -/
def nodeChunkEvs : List Json → Nat → Nat → List Ev
  | [], _, _ => []
  | n :: rest, i, tot => Ev.chunk (.workflowNode n i tot) :: Ev.pause :: nodeChunkEvs rest (i + 1) tot

/-- The corresponding SSE events: one `workflow_node` per element, carrying the
element, its index and the total. -/
def nodeSSEs : List Json → Nat → Nat → List SSE
  | [], _, _ => []
  | n :: rest, i, tot => SSE.workflowNode n i tot :: nodeSSEs rest (i + 1) tot

/-! ### Structural lemmas about the loop -/

/-- The two messages appended per tool use, flattened in order. -/
def pairsFlat : List (Msg × Msg) → List Msg
  | [] => []
  | p :: rest => p.1 :: p.2 :: pairsFlat rest

/-- One appended (assistant, user) message pair is well-formed: the assistant
message holds no tool results, and the user message is exactly one tool-result
block whose id is among the assistant message's tool-use ids. -/
def PairOk (p : Msg × Msg) : Prop :=
  msgToolResultIds p.1 = [] ∧
  ∃ id r, p.2 = ⟨"user", .blocks [Block.toolResult id r none]⟩ ∧ id ∈ msgToolUseIds p.1

theorem pairsFlat_append (a b : List (Msg × Msg)) :
    pairsFlat (a ++ b) = pairsFlat a ++ pairsFlat b := by
  induction a with
  | nil => simp [pairsFlat]
  | cons p rest ih => simp [pairsFlat, ih]

theorem contentEv_not_artifact {e : Ev} (h : e.isContentEv = true) :
    e.isArtifactEv = false := by
  cases e with
  | chunk c => cases c <;> simp_all [Ev.isContentEv, Ev.isArtifactEv, Chunk.isArtifactChunk]
  | _ => simp [Ev.isArtifactEv]

theorem contentEv_not_error {e : Ev} (h : e.isContentEv = true) :
    e.isErrorChunkEv = false := by
  cases e with
  | chunk c => cases c <;> simp_all [Ev.isContentEv, Ev.isErrorChunkEv, Chunk.isErrorChunk]
  | _ => simp [Ev.isErrorChunkEv]

theorem contentEv_not_api {e : Ev} (h : e.isContentEv = true) :
    e.isApiCall = false := by
  cases e <;> simp_all [Ev.isContentEv, Ev.isApiCall]

/-- Embedding of `processBlocks` only extends trace and messages: the new events are plain
content chunks and the new messages come in well-formed tool-use/tool-result
pairs. -/
theorem processBlocks_spec (tex : ToolExec) :
    ∀ (blocks : List RespBlock) (ac : List Block) (st : ChatState),
    ∃ evs pairs,
      (processBlocks tex blocks ac st).trace = st.trace ++ evs ∧
      (processBlocks tex blocks ac st).messages = st.messages ++ pairsFlat pairs ∧
      (processBlocks tex blocks ac st).callIdx = st.callIdx ∧
      (∀ e ∈ evs, e.isContentEv = true) ∧
      (ac.filterMap Block.resultId? = [] → ∀ p ∈ pairs, PairOk p)
  | [], ac, st => ⟨[], [], by simp [processBlocks, pairsFlat]⟩
  | .text t :: rest, ac, st => by
    obtain ⟨evs, pairs, h1, h2, h3, h4, h5⟩ :=
      processBlocks_spec tex rest (ac ++ [Block.text t])
        (({ st with accumulated := st.accumulated ++ t }).emitChunk (.message t))
    refine ⟨Ev.chunk (.message t) :: evs, pairs, ?_, ?_, ?_, ?_, ?_⟩
    · simpa [processBlocks, ChatState.emitChunk, ChatState.emit] using h1
    · simpa [processBlocks, ChatState.emitChunk, ChatState.emit] using h2
    · simpa [processBlocks, ChatState.emitChunk, ChatState.emit] using h3
    · intro e he
      rcases List.mem_cons.mp he with rfl | he'
      · simp [Ev.isContentEv]
      · exact h4 e he'
    · intro hac
      exact h5 (by simp [List.filterMap_append, hac, Block.resultId?])
  | .toolUse id name input :: rest, ac, st => by
    obtain ⟨evs, pairs, h1, h2, h3, h4, h5⟩ :=
      processBlocks_spec tex rest []
        { (st.emitChunk (.toolUse name input)).emitChunk
            (.toolResult name (execute_tool tex name input)) with
          messages := st.messages ++
            [⟨"assistant", .blocks (ac ++ [Block.toolUse id name input])⟩,
             ⟨"user", .blocks [Block.toolResult id (execute_tool tex name input) none]⟩] }
    refine ⟨Ev.chunk (.toolUse name input) ::
        Ev.chunk (.toolResult name (execute_tool tex name input)) :: evs,
      (⟨"assistant", .blocks (ac ++ [Block.toolUse id name input])⟩,
       ⟨"user", .blocks [Block.toolResult id (execute_tool tex name input) none]⟩) :: pairs,
      ?_, ?_, ?_, ?_, ?_⟩
    · simpa [processBlocks, ChatState.emitChunk, ChatState.emit] using h1
    · simp only [processBlocks, ChatState.emitChunk, ChatState.emit] at h2 ⊢
      rw [h2]
      simp [pairsFlat]
    · simpa [processBlocks, ChatState.emitChunk, ChatState.emit] using h3
    · intro e he
      rcases List.mem_cons.mp he with rfl | he'
      · simp [Ev.isContentEv]
      rcases List.mem_cons.mp he' with rfl | he''
      · simp [Ev.isContentEv]
      · exact h4 e he''
    · intro hac p hp
      rcases List.mem_cons.mp hp with rfl | hp'
      · refine ⟨?_, id, execute_tool tex name input, rfl, ?_⟩
        · simp [msgToolResultIds, List.filterMap_append, hac, Block.resultId?]
        · simp [msgToolUseIds, List.filterMap_append, Block.useId?]
      · exact h5 (by simp [Block.resultId?]) p hp'

/-- Embedding of `callWithRetry` only extends the trace (API-call markers, retry notices,
sleeps, and — on give-up — one error chunk); messages and accumulated text are
untouched, and a successful call emits no error chunk. -/
theorem callWithRetry_spec (provider : Provider) :
    ∀ (rem d : Nat) (st : ChatState),
    ∃ evs,
      (callWithRetry provider rem d st).1.trace = st.trace ++ evs ∧
      (callWithRetry provider rem d st).1.messages = st.messages ∧
      (callWithRetry provider rem d st).1.accumulated = st.accumulated ∧
      (∀ e ∈ evs, e.isArtifactEv = false) ∧
      (∀ r, (callWithRetry provider rem d st).2 = some r → ∀ e ∈ evs, e.isErrorChunkEv = false)
  | 0, d, st => ⟨[], by simp [callWithRetry]⟩
  | rem + 1, d, st => by
    rcases hp : provider st.callIdx with resp | m | e
    · refine ⟨[Ev.apiCall], ?_, ?_, ?_, ?_, ?_⟩ <;>
        simp [callWithRetry, hp, ChatState.afterCall, Ev.isArtifactEv, Ev.isErrorChunkEv]
    · by_cases hrem : rem > 0
      · obtain ⟨evs, h1, h2, h3, h4, h5⟩ := callWithRetry_spec provider rem (d * 2)
          ((st.afterCall.emitChunk (.message (retryNotice d))).emit (.sleep d))
        refine ⟨Ev.apiCall :: Ev.chunk (.message (retryNotice d)) :: Ev.sleep d :: evs,
          ?_, ?_, ?_, ?_, ?_⟩
        · simpa [callWithRetry, hp, hrem, ChatState.emitChunk, ChatState.emit,
            ChatState.afterCall] using h1
        · simpa [callWithRetry, hp, hrem, ChatState.emitChunk, ChatState.emit,
            ChatState.afterCall] using h2
        · simpa [callWithRetry, hp, hrem, ChatState.emitChunk, ChatState.emit,
            ChatState.afterCall] using h3
        · intro ev he
          rcases List.mem_cons.mp he with rfl | he'
          · simp [Ev.isArtifactEv]
          rcases List.mem_cons.mp he' with rfl | he''
          · simp [Ev.isArtifactEv, Chunk.isArtifactChunk]
          rcases List.mem_cons.mp he'' with rfl | he'''
          · simp [Ev.isArtifactEv]
          · exact h4 ev he'''
        · intro r hr ev he
          have hr' : (callWithRetry provider rem (d * 2)
              ((st.afterCall.emitChunk (.message (retryNotice d))).emit (.sleep d))).2
                = some r := by
            simpa [callWithRetry, hp, hrem] using hr
          rcases List.mem_cons.mp he with rfl | he'
          · simp [Ev.isErrorChunkEv]
          rcases List.mem_cons.mp he' with rfl | he''
          · simp [Ev.isErrorChunkEv, Chunk.isErrorChunk]
          rcases List.mem_cons.mp he'' with rfl | he'''
          · simp [Ev.isErrorChunkEv]
          · exact h5 r hr' ev he'''
      · have hrem0 : rem = 0 := by omega
        subst hrem0
        refine ⟨[Ev.apiCall, Ev.chunk (.error rateLimitMsg)], ?_, ?_, ?_, ?_, ?_⟩ <;>
          simp [callWithRetry, hp, ChatState.emitChunk, ChatState.emit, ChatState.afterCall,
            Ev.isArtifactEv, Chunk.isArtifactChunk]
    · refine ⟨[Ev.apiCall,
        Ev.chunk (.error ("Error communicating with Claude: " ++ e))], ?_, ?_, ?_, ?_, ?_⟩ <;>
        simp [callWithRetry, hp, ChatState.emitChunk, ChatState.emit, ChatState.afterCall,
          Ev.isArtifactEv, Chunk.isArtifactChunk]

/-- Embedding of `streamNodes` leaves messages untouched and emits only artifact chunks and
pauses — never an API call. -/
theorem streamNodes_spec (workflow : Json) :
    ∀ (ns : List Json) (i tot : Nat) (st : ChatState),
    ∃ evs,
      (streamNodes workflow ns i tot st).trace = st.trace ++ evs ∧
      (streamNodes workflow ns i tot st).messages = st.messages ∧
      (∀ e ∈ evs, e.isApiCall = false)
  | [], i, tot, st => ⟨[Ev.chunk (.workflow workflow)],
      by simp [streamNodes, ChatState.emitChunk, ChatState.emit, Ev.isApiCall]⟩
  | node :: rest, i, tot, st => by
    rcases node with _ | b | n | s | s | xs | kvs
    case obj =>
      obtain ⟨evs, h1, h2, h3⟩ := streamNodes_spec workflow rest (i + 1) tot
        (((st.emitChunk (.workflowNode (.obj kvs) i tot)).emit .pause))
      refine ⟨Ev.chunk (.workflowNode (.obj kvs) i tot) :: Ev.pause :: evs, ?_, ?_, ?_⟩
      · simpa [streamNodes, ChatState.emitChunk, ChatState.emit] using h1
      · simpa [streamNodes, ChatState.emitChunk, ChatState.emit] using h2
      · intro e he
        rcases List.mem_cons.mp he with rfl | he'
        · simp [Ev.isApiCall]
        rcases List.mem_cons.mp he' with rfl | he''
        · simp [Ev.isApiCall]
        · exact h3 e he''
    all_goals exact ⟨[], by simp [streamNodes]⟩

/-- The `end_turn` branch leaves messages untouched and emits no API call. -/
theorem endTurnFinish_spec (st : ChatState) :
    ∃ evs,
      (endTurnFinish st).trace = st.trace ++ evs ∧
      (endTurnFinish st).messages = st.messages ∧
      (∀ e ∈ evs, e.isApiCall = false) := by
  unfold endTurnFinish
  rcases hw : extract_workflow st.accumulated with _ | w
  · exact ⟨[], by simp⟩
  by_cases ht : w.pyTruthy
  · simp only [ht, if_true]
    rcases hi : (w.dictGet "nodes" (Json.arr [])).pyIter with _ | nodes
    · exact ⟨[], by simp⟩
    obtain ⟨evs, h1, h2, h3⟩ := streamNodes_spec w nodes 0 nodes.length
      (st.emitChunk .workflowClear)
    refine ⟨Ev.chunk .workflowClear :: evs, ?_, ?_, ?_⟩
    · simpa [ChatState.emitChunk, ChatState.emit] using h1
    · simpa [ChatState.emitChunk, ChatState.emit] using h2
    · intro e he
      rcases List.mem_cons.mp he with rfl | he'
      · simp [Ev.isApiCall]
      · exact h3 e he'
  · simp only [ht, if_false]
    exact ⟨[], by simp⟩

theorem nca_of_no_artifact {l : List Ev} (h : ∀ e ∈ l, e.isArtifactEv = false) :
    noCallAfterArtifact l = true := by
  induction l with
  | nil => rfl
  | cons e rest ih =>
    have := h e (by simp)
    simp [noCallAfterArtifact, this]
    exact ih fun x hx => h x (by simp [hx])

theorem nca_of_no_api {l : List Ev} (h : ∀ e ∈ l, e.isApiCall = false) :
    noCallAfterArtifact l = true := by
  induction l with
  | nil => rfl
  | cons e rest ih =>
    by_cases ha : e.isArtifactEv
    · simp only [noCallAfterArtifact, ha, if_true]
      exact List.all_eq_true.mpr fun x hx => by simp [h x (by simp [hx])]
    · simp only [noCallAfterArtifact, ha, if_false]
      exact ih fun x hx => h x (by simp [hx])

theorem nca_append {a b : List Ev} (h : ∀ e ∈ a, e.isArtifactEv = false) :
    noCallAfterArtifact (a ++ b) = noCallAfterArtifact b := by
  induction a with
  | nil => rfl
  | cons e rest ih =>
    have := h e (by simp)
    simp only [List.cons_append, noCallAfterArtifact, this, if_false]
    exact ih fun x hx => h x (by simp [hx])

/-- The main-loop invariant: the trace only grows, messages grow only by
well-formed tool-use/tool-result pairs, and no provider call ever follows an
artifact chunk (artifact events happen only in the terminal `end_turn`
branch). -/
theorem chatLoop_spec (provider : Provider) (tex : ToolExec) :
    ∀ (rem : Nat) (st : ChatState),
    ∃ evs pairs,
      (chatLoop provider tex rem st).trace = st.trace ++ evs ∧
      (chatLoop provider tex rem st).messages = st.messages ++ pairsFlat pairs ∧
      (∀ p ∈ pairs, PairOk p) ∧
      noCallAfterArtifact evs = true
  | 0, st => by
    refine ⟨[Ev.chunk (.error iterationLimitMsg)], [], ?_, ?_, ?_, ?_⟩
    · simp [chatLoop, ChatState.emitChunk, ChatState.emit]
    · simp [chatLoop, ChatState.emitChunk, ChatState.emit, pairsFlat]
    · simp
    · exact nca_of_no_artifact (by simp [Ev.isArtifactEv, Chunk.isArtifactChunk])
  | rem + 1, st => by
    obtain ⟨evs1, hc1, hc2, hc3, hc4, hc5⟩ :=
      callWithRetry_spec provider maxRetries initialRetryDelay st
    rcases hcw : callWithRetry provider maxRetries initialRetryDelay st with ⟨st1, o⟩
    rw [hcw] at hc1 hc2 hc3 hc5
    dsimp only at hc1 hc2 hc3 hc5
    rcases o with _ | resp
    · refine ⟨evs1, [], ?_, ?_, ?_, ?_⟩
      · simp [chatLoop, hcw, hc1]
      · simp [chatLoop, hcw, hc2, pairsFlat]
      · simp
      · exact nca_of_no_artifact hc4
    · obtain ⟨evs2, pairs2, hp1, hp2, hp3, hp4, hp5⟩ :=
        processBlocks_spec tex resp.content [] st1
      have hpairs2 : ∀ p ∈ pairs2, PairOk p := hp5 (by simp)
      have hart2 : ∀ e ∈ evs2, e.isArtifactEv = false :=
        fun e he => contentEv_not_artifact (hp4 e he)
      by_cases hs1 : resp.stopReason = "end_turn"
      · obtain ⟨evs3, he1, he2, he3⟩ := endTurnFinish_spec (processBlocks tex resp.content [] st1)
        refine ⟨evs1 ++ evs2 ++ evs3, pairs2, ?_, ?_, hpairs2, ?_⟩
        · simp [chatLoop, hcw, hs1, he1, hp1, hc1]
        · simp [chatLoop, hcw, hs1, he2, hp2, hc2]
        · rw [List.append_assoc, nca_append hc4, nca_append hart2]
          exact nca_of_no_api he3
      · by_cases hs2 : resp.stopReason = "tool_use"
        · obtain ⟨evs4, pairs4, hi1, hi2, hi3, hi4⟩ :=
            chatLoop_spec provider tex rem (processBlocks tex resp.content [] st1)
          refine ⟨evs1 ++ evs2 ++ evs4, pairs2 ++ pairs4, ?_, ?_, ?_, ?_⟩
          · simp [chatLoop, hcw, hs1, hs2, hi1, hp1, hc1]
          · simp [chatLoop, hcw, hs1, hs2, hi2, hp2, hc2, pairsFlat_append]
          · intro p hp
            rcases List.mem_append.mp hp with h | h
            · exact hpairs2 p h
            · exact hi3 p h
          · rw [List.append_assoc, nca_append hc4, nca_append hart2]
            exact hi4
        · by_cases hs3 : resp.stopReason = "max_tokens"
          · refine ⟨evs1 ++ evs2 ++
              [Ev.chunk (.message "\n\n[Response truncated - maximum length reached]")],
              pairs2, ?_, ?_, hpairs2, ?_⟩
            · simp [chatLoop, hcw, hs1, hs2, hs3, hp1, hc1, ChatState.emitChunk, ChatState.emit]
            · simp [chatLoop, hcw, hs1, hs2, hs3, hp2, hc2, ChatState.emitChunk, ChatState.emit]
            · rw [List.append_assoc, nca_append hc4, nca_append hart2]
              exact nca_of_no_artifact (by simp [Ev.isArtifactEv, Chunk.isArtifactChunk])
          · refine ⟨evs1 ++ evs2, pairs2, ?_, ?_, hpairs2, ?_⟩
            · simp [chatLoop, hcw, hs1, hs2, hs3, hp1, hc1]
            · simp [chatLoop, hcw, hs1, hs2, hs3, hp2, hc2]
            · rw [nca_append hc4]
              exact nca_of_no_artifact hart2

theorem resolvedAux_pairsFlat :
    ∀ (pairs : List (Msg × Msg)) (seen : List String),
    (∀ p ∈ pairs, PairOk p) → resolvedAux seen (pairsFlat pairs) = true
  | [], seen, _ => rfl
  | (a, u) :: rest, seen, h => by
    obtain ⟨hres, id, r, hu, hid⟩ := h (a, u) (by simp)
    subst hu
    simp only [pairsFlat, resolvedAux, hres, List.all_nil, Bool.true_and]
    have hres_u : msgToolResultIds ⟨"user", .blocks [Block.toolResult id r none]⟩ = [id] := by
      simp [msgToolResultIds, Block.resultId?]
    have huse_u : msgToolUseIds ⟨"user", .blocks [Block.toolResult id r none]⟩ = [] := by
      simp [msgToolUseIds, Block.useId?]
    rw [hres_u, huse_u]
    simp only [List.all_cons, List.all_nil, Bool.and_true, List.append_nil]
    rw [Bool.and_eq_true]
    refine ⟨(by simp [hid] : (seen ++ msgToolUseIds a).contains id = true),
      resolvedAux_pairsFlat rest (seen ++ msgToolUseIds a) fun p hp => h p (by simp [hp])⟩

/-- C8. Invariant on the message list: every tool-result block appended to
`messages` during a run references the id of a tool-use block appearing in a
message appended strictly earlier — the assistant message carrying the
tool-use block is appended immediately before the user message carrying the
matching tool result. -/
theorem tool_results_reference_earlier (provider : Provider) (tex : ToolExec)
    (um : String) (h : Option (List Msg)) :
    toolResultsResolved
      ((chat provider tex um h).messages.drop (initialHistory h).length) = true := by
  obtain ⟨evs, pairs, h1, h2, h3, h4⟩ :=
    chatLoop_spec provider tex maxIterations
      ⟨[], (historyTarget h).1 ++ [⟨"user", .str um⟩], "", 0⟩
  have hmsg : (chat provider tex um h).messages =
      ((historyTarget h).1 ++ [⟨"user", .str um⟩]) ++ pairsFlat pairs := by
    simpa [chat] using h2
  have hdrop : (chat provider tex um h).messages.drop (initialHistory h).length =
      ⟨"user", .str um⟩ :: pairsFlat pairs := by
    rw [hmsg]
    rcases h with _ | l
    · simp [historyTarget, initialHistory]
    · rcases hl : l.isEmpty with _ | _
      · have : l ≠ [] := by simpa using hl
        simp [historyTarget, initialHistory, hl, List.append_assoc, List.drop_left]
      · have : l = [] := by simpa using hl
        subst this
        simp [historyTarget, initialHistory]
  rw [hdrop]
  simp only [toolResultsResolved, resolvedAux, msgToolResultIds, msgToolUseIds,
    List.all_nil, Bool.true_and, List.append_nil]
  exact resolvedAux_pairsFlat pairs [] h3

/-- C9. A non-`None`, nonempty `conversation_history` is aliased by
`messages = conversation_history or []`, so every message produced during the
run is appended to the caller's own list object, which is strictly longer
afterwards and still starts with the original history followed by the new
user message. -/
theorem history_aliased_and_extended (provider : Provider) (tex : ToolExec)
    (um : String) (l : List Msg) (hne : l ≠ []) :
    (chat provider tex um (some l)).aliasedHistory = true ∧
    (∃ rest, (chat provider tex um (some l)).messages = l ++ (⟨"user", .str um⟩ :: rest)) ∧
    l.length < (chat provider tex um (some l)).messages.length := by
  have hl : l.isEmpty = false := by simpa using hne
  obtain ⟨evs, pairs, h1, h2, h3, h4⟩ :=
    chatLoop_spec provider tex maxIterations
      ⟨[], (historyTarget (some l)).1 ++ [⟨"user", .str um⟩], "", 0⟩
  have hmsg : (chat provider tex um (some l)).messages =
      ((historyTarget (some l)).1 ++ [⟨"user", .str um⟩]) ++ pairsFlat pairs := by
    simpa [chat] using h2
  rw [historyTarget] at hmsg
  simp only [hl] at hmsg
  refine ⟨by simp [chat, historyTarget, hl], ⟨pairsFlat pairs, by simpa using hmsg⟩, ?_⟩
  rw [hmsg]
  simp

theorem translate_not_done {c : Chunk} {e : SSE} (he : e ∈ translateChunk c) :
    e ≠ SSE.done := by
  cases c <;> simp_all [translateChunk]

theorem translate_error {c : Chunk} {e : SSE} (he : e ∈ translateChunk c)
    (herr : e.isError = true) : c.isErrorChunk = true := by
  cases c <;> simp_all [translateChunk, Chunk.isErrorChunk] <;>
    simp_all [SSE.isError]

/-- C2 counterexample: a run whose provider call raises a non-rate-limit
exception yields the stream `[start, error, done]` — the `done` event follows
the `error` event, so the terminal event is neither unique nor last. -/
theorem terminal_event_not_unique_cex :
    event_generator (chat (fun _ => ProviderResult.err "boom")
        (fun _ _ => .ok Json.null) "hi" none) =
      [SSE.start, SSE.error "Error communicating with Claude: boom", SSE.done] ∧
    terminalUniqueLast (event_generator (chat (fun _ => ProviderResult.err "boom")
        (fun _ _ => .ok Json.null) "hi" none)) = false := by
  exact ⟨rfl, rfl⟩

/-- C2 (amended). For every run: `start` is emitted first; no artifact chunk
precedes a later provider call (artifact events belong to the terminal
`end_turn` turn); when the service generator completes without raising, the
stream ends with exactly one `done` — which also follows any `error` event
forwarded from the service, so a forwarded `error` is not terminal; only when
the service generator raises does the stream end with the trailing stream
error and no `done`. -/
theorem event_stream_order (provider : Provider) (tex : ToolExec)
    (um : String) (h : Option (List Msg)) :
    (event_generator (chat provider tex um h)).head? = some SSE.start ∧
    noCallAfterArtifact (chat provider tex um h).trace = true ∧
    ((chat provider tex um h).raised = none →
      (event_generator (chat provider tex um h)).getLast? = some SSE.done ∧
      countDone (event_generator (chat provider tex um h)) = 1) ∧
    (∀ e, (chat provider tex um h).raised = some e →
      (event_generator (chat provider tex um h)).getLast? =
        some (SSE.error ("Stream error: " ++ e))) := by
  have hbody_nodone : ∀ chunks : List Chunk,
      (chunks.flatMap translateChunk).filter (fun e => e = SSE.done) = [] := by
    intro chunks
    refine List.filter_eq_nil_iff.mpr ?_
    intro e he
    obtain ⟨c, _, hec⟩ := List.mem_flatMap.mp he
    simpa using translate_not_done hec
  refine ⟨?_, ?_, ?_, ?_⟩
  · rcases hr : (chat provider tex um h).raised with _ | e <;>
      simp [event_generator, hr]
  · obtain ⟨evs, pairs, h1, h2, h3, h4⟩ :=
      chatLoop_spec provider tex maxIterations
        ⟨[], (historyTarget h).1 ++ [⟨"user", .str um⟩], "", 0⟩
    have : (chat provider tex um h).trace = evs := by simpa [chat] using h1
    rw [this]
    exact h4
  · intro hr
    constructor
    · simp only [event_generator, hr]
      rw [show SSE.start :: (chatChunks (chat provider tex um h)).flatMap translateChunk ++
            (match lastWorkflow (chatChunks (chat provider tex um h)) with
             | some w => if w.pyTruthy then [SSE.workflow w] else []
             | none => []) ++ [SSE.done] =
          (SSE.start :: (chatChunks (chat provider tex um h)).flatMap translateChunk ++
            (match lastWorkflow (chatChunks (chat provider tex um h)) with
             | some w => if w.pyTruthy then [SSE.workflow w] else []
             | none => [])) ++ [SSE.done] from by simp]
      exact List.getLast?_concat _
    · rcases hlw : lastWorkflow (chatChunks (chat provider tex um h)) with _ | w
      · simp [event_generator, hr, countDone, hlw, List.filter_append, hbody_nodone]
      · by_cases ht : w.pyTruthy <;>
          simp [event_generator, hr, countDone, hlw, ht, List.filter_append, hbody_nodone]
  · intro e hr
    simp only [event_generator, hr]
    rw [show SSE.start :: (chatChunks (chat provider tex um h)).flatMap translateChunk ++
          [SSE.error ("Stream error: " ++ e)] =
        (SSE.start :: (chatChunks (chat provider tex um h)).flatMap translateChunk) ++
          [SSE.error ("Stream error: " ++ e)] from by simp]
    exact List.getLast?_concat _

theorem countApiCalls_append (a b : List Ev) :
    countApiCalls (a ++ b) = countApiCalls a + countApiCalls b := by
  simp [countApiCalls, List.filter_append]

theorem countErrorChunks_append (a b : List Ev) :
    countErrorChunks (a ++ b) = countErrorChunks a + countErrorChunks b := by
  simp [countErrorChunks, List.filter_append]

theorem countApiCalls_eq_zero {l : List Ev} (h : ∀ e ∈ l, e.isApiCall = false) :
    countApiCalls l = 0 := by
  have hnil : l.filter Ev.isApiCall = [] :=
    List.filter_eq_nil_iff.mpr fun e he => by simp [h e he]
  simp [countApiCalls, hnil]

theorem countErrorChunks_eq_zero {l : List Ev} (h : ∀ e ∈ l, e.isErrorChunkEv = false) :
    countErrorChunks l = 0 := by
  have hnil : l.filter Ev.isErrorChunkEv = [] :=
    List.filter_eq_nil_iff.mpr fun e he => by simp [h e he]
  simp [countErrorChunks, hnil]

/-- A successful provider call exits the retry loop at once. -/
theorem callWithRetry_ok {provider : Provider} {st : ChatState} {r : ProviderResponse}
    (hp : provider st.callIdx = .ok r) (rem d : Nat) :
    callWithRetry provider (rem + 1) d st = (st.afterCall, some r) := by
  simp [callWithRetry, hp]

/-- Under a provider whose every response stops with `tool_use`, the loop runs
its remaining iterations (one successful API call each), then yields the
iteration-limit error chunk as its very last event. -/
theorem chatLoop_all_tool_use (provider : Provider) (tex : ToolExec)
    (hp : ∀ n, ∃ r, provider n = ProviderResult.ok r ∧ r.stopReason = "tool_use") :
    ∀ (rem : Nat) (st : ChatState),
    ∃ evs,
      (chatLoop provider tex rem st).trace = st.trace ++ evs ∧
      countApiCalls evs = rem ∧
      countErrorChunks evs = 1 ∧
      evs.getLast? = some (Ev.chunk (.error iterationLimitMsg)) ∧
      (chatLoop provider tex rem st).raised = none
  | 0, st => by
    refine ⟨[Ev.chunk (.error iterationLimitMsg)], ?_, ?_, ?_, ?_, ?_⟩ <;>
      simp [chatLoop, ChatState.emitChunk, ChatState.emit, countApiCalls, countErrorChunks,
        Ev.isApiCall, Ev.isErrorChunkEv, Chunk.isErrorChunk]
  | rem + 1, st => by
    obtain ⟨resp, hpr, hsr⟩ := hp st.callIdx
    have hcw := callWithRetry_ok hpr (maxRetries - 1) initialRetryDelay
    obtain ⟨evs2, pairs2, hp1, hp2, hp3, hp4, hp5⟩ :=
      processBlocks_spec tex resp.content [] st.afterCall
    obtain ⟨evs', hi1, hi2, hi3, hi4, hi5⟩ :=
      chatLoop_all_tool_use provider tex hp rem (processBlocks tex resp.content [] st.afterCall)
    have hloop : chatLoop provider tex (rem + 1) st =
        chatLoop provider tex rem (processBlocks tex resp.content [] st.afterCall) := by
      simp [chatLoop, maxRetries] at hcw ⊢
      simp [hcw, hsr]
    refine ⟨Ev.apiCall :: (evs2 ++ evs'), ?_, ?_, ?_, ?_, ?_⟩
    · rw [hloop, hi1, hp1]
      simp [ChatState.afterCall]
    · have h2z : countApiCalls evs2 = 0 :=
        countApiCalls_eq_zero fun e he => contentEv_not_api (hp4 e he)
      rw [show Ev.apiCall :: (evs2 ++ evs') = [Ev.apiCall] ++ (evs2 ++ evs') from rfl,
        countApiCalls_append, countApiCalls_append, h2z, hi2]
      have hone : countApiCalls [Ev.apiCall] = 1 := rfl
      omega
    · have h2z : countErrorChunks evs2 = 0 :=
        countErrorChunks_eq_zero fun e he => contentEv_not_error (hp4 e he)
      rw [show Ev.apiCall :: (evs2 ++ evs') = [Ev.apiCall] ++ (evs2 ++ evs') from rfl,
        countErrorChunks_append, countErrorChunks_append, h2z, hi3]
      have hzer : countErrorChunks [Ev.apiCall] = 0 := rfl
      omega
    · have hne : evs' ≠ [] := by
        intro hnil
        rw [hnil] at hi4
        simp at hi4
      rw [show Ev.apiCall :: (evs2 ++ evs') = (Ev.apiCall :: evs2) ++ evs' from by simp,
        List.getLast?_append_of_ne_nil _ hne]
      exact hi4
    · rw [hloop]
      exact hi5

/-- C1. When every provider response stops with `tool_use`, the run performs
exactly `max_iterations = 15` loop bodies (one successful provider call each)
and then terminates: its one and only error chunk is the iteration-limit
message — distinguishable from the provider error messages — and it is the
final event, so no provider call follows it. -/
theorem iteration_limit_reached (provider : Provider) (tex : ToolExec)
    (um : String) (h : Option (List Msg))
    (hp : ∀ n, ∃ r, provider n = ProviderResult.ok r ∧ r.stopReason = "tool_use") :
    maxIterations = 15 ∧
    countApiCalls (chat provider tex um h).trace = maxIterations ∧
    countErrorChunks (chat provider tex um h).trace = 1 ∧
    (chat provider tex um h).trace.getLast? =
      some (Ev.chunk (.error iterationLimitMsg)) ∧
    (chat provider tex um h).raised = none := by
  obtain ⟨evs, h1, h2, h3, h4, h5⟩ :=
    chatLoop_all_tool_use provider tex hp maxIterations
      ⟨[], (historyTarget h).1 ++ [⟨"user", .str um⟩], "", 0⟩
  have htr : (chat provider tex um h).trace = evs := by simpa [chat] using h1
  have hrz : (chat provider tex um h).raised = none := by simpa [chat] using h5
  exact ⟨rfl, by rw [htr]; exact h2, by rw [htr]; exact h3, by rw [htr]; exact h4, hrz⟩

/-- C1 witness: a stub provider that always answers `tool_use`. -/
theorem iteration_limit_reached_witness :
    maxIterations = 15 ∧
    countApiCalls (chat (fun _ => ProviderResult.ok ⟨[], "tool_use"⟩)
      (fun _ _ => .ok Json.null) "hi" none).trace = maxIterations ∧
    countErrorChunks (chat (fun _ => ProviderResult.ok ⟨[], "tool_use"⟩)
      (fun _ _ => .ok Json.null) "hi" none).trace = 1 ∧
    (chat (fun _ => ProviderResult.ok ⟨[], "tool_use"⟩)
      (fun _ _ => .ok Json.null) "hi" none).trace.getLast? =
      some (Ev.chunk (.error iterationLimitMsg)) ∧
    (chat (fun _ => ProviderResult.ok ⟨[], "tool_use"⟩)
      (fun _ _ => .ok Json.null) "hi" none).raised = none :=
  iteration_limit_reached (fun _ => ProviderResult.ok ⟨[], "tool_use"⟩)
    (fun _ _ => .ok Json.null) "hi" none (fun _ => ⟨⟨[], "tool_use"⟩, rfl, rfl⟩)

/-- The backoff sleeps performed inside one retry loop invocation, in order. -/
def turnWaits (provider : Provider) (st : ChatState) : List Nat :=
  (traceWaits ((callWithRetry provider maxRetries initialRetryDelay st).1.trace)).drop
    (traceWaits st.trace).length

theorem traceWaits_append (a b : List Ev) :
    traceWaits (a ++ b) = traceWaits a ++ traceWaits b := by
  simp [traceWaits, List.filterMap_append]

/-- Exhaustive evaluation of one retry loop: the sleeps are `[]`, `[2]` or
`[2, 4]` — the doubling schedule truncated at the failure count. -/
theorem callWithRetry_waits (provider : Provider) (st : ChatState) :
    turnWaits provider st = [] ∨ turnWaits provider st = [2] ∨
      turnWaits provider st = [2, 4] := by
  have hws : ∀ ws : List Nat,
      traceWaits ((callWithRetry provider maxRetries initialRetryDelay st).1.trace) =
        traceWaits st.trace ++ ws → turnWaits provider st = ws := by
    intro ws hw
    simp [turnWaits, hw, List.drop_left]
  rcases h0 : provider st.callIdx with r0 | m0 | e0
  · exact Or.inl (hws [] (by simp [callWithRetry, maxRetries, initialRetryDelay, h0,
      ChatState.afterCall, traceWaits_append, traceWaits]))
  · rcases h1 : provider (st.callIdx + 1) with r1 | m1 | e1
    · refine Or.inr (Or.inl (hws [2] ?_))
      simp [callWithRetry, maxRetries, initialRetryDelay, h0, h1, ChatState.afterCall,
        ChatState.emitChunk, ChatState.emit, traceWaits_append, traceWaits]
    · rcases h2 : provider (st.callIdx + 2) with r2 | m2 | e2 <;>
      · refine Or.inr (Or.inr (hws [2, 4] ?_))
        simp [callWithRetry, maxRetries, initialRetryDelay, h0, h1, h2, ChatState.afterCall,
          ChatState.emitChunk, ChatState.emit, traceWaits_append, traceWaits]
    · refine Or.inr (Or.inl (hws [2] ?_))
      simp [callWithRetry, maxRetries, initialRetryDelay, h0, h1, ChatState.afterCall,
        ChatState.emitChunk, ChatState.emit, traceWaits_append, traceWaits]
  · exact Or.inl (hws [] (by simp [callWithRetry, maxRetries, initialRetryDelay, h0,
      ChatState.afterCall, ChatState.emitChunk, ChatState.emit,
      traceWaits_append, traceWaits]))

/-- C5. Backoff policy: within any single turn, the wait before the
`attempt`-th retry is `initial_backoff * multiplier ^ attempt` (2, then 4 —
never more than the largest wait the schedule can produce, so any cap of at
least `initial_backoff * multiplier ^ (max_retries - 2) = 4` never binds),
hence the waits are non-decreasing and bounded; and when all
`max_retries = 3` attempts of a turn fail with rate limits, the run makes
exactly those 3 provider calls, emits the rate-limit error chunk as its final
event, and retries no further. -/
theorem backoff_policy (provider : Provider) (tex : ToolExec) (um : String)
    (h : Option (List Msg)) (m0 m1 m2 : String)
    (hr0 : provider 0 = .rateLimit m0) (hr1 : provider 1 = .rateLimit m1)
    (hr2 : provider 2 = .rateLimit m2) :
    (∀ (p : Provider) (st : ChatState),
      (∀ k w, (turnWaits p st).get? k = some w →
        w = initialRetryDelay * 2 ^ k ∧
        w ≤ initialRetryDelay * 2 ^ (maxRetries - 2)) ∧
      List.Chain' (· ≤ ·) (turnWaits p st)) ∧
    (chat provider tex um h).trace =
      [Ev.apiCall, Ev.chunk (.message (retryNotice 2)), Ev.sleep 2,
       Ev.apiCall, Ev.chunk (.message (retryNotice 4)), Ev.sleep 4,
       Ev.apiCall, Ev.chunk (.error rateLimitMsg)] ∧
    traceWaits (chat provider tex um h).trace = [2, 4] ∧
    countApiCalls (chat provider tex um h).trace = maxRetries ∧
    (chat provider tex um h).trace.getLast? = some (Ev.chunk (.error rateLimitMsg)) ∧
    (chat provider tex um h).raised = none := by
  have htrace : (chat provider tex um h).trace =
      [Ev.apiCall, Ev.chunk (.message (retryNotice 2)), Ev.sleep 2,
       Ev.apiCall, Ev.chunk (.message (retryNotice 4)), Ev.sleep 4,
       Ev.apiCall, Ev.chunk (.error rateLimitMsg)] := by
    simp [chat, chatLoop, maxIterations, callWithRetry, maxRetries, initialRetryDelay,
      hr0, hr1, hr2, ChatState.afterCall, ChatState.emitChunk, ChatState.emit]
  refine ⟨?_, htrace, ?_, ?_, ?_, ?_⟩
  · intro p st
    rcases callWithRetry_waits p st with hw | hw | hw <;> rw [hw]
    · exact ⟨fun k w hk => by simp at hk, by simp⟩
    · refine ⟨fun k w hk => ?_, by simp⟩
      match k, hk with
      | 0, hk =>
        have : w = 2 := by simpa using hk.symm
        subst this
        exact ⟨by norm_num [initialRetryDelay], by norm_num [initialRetryDelay, maxRetries]⟩
    · refine ⟨fun k w hk => ?_, by simp [List.Chain']⟩
      match k, hk with
      | 0, hk =>
        have : w = 2 := by simpa using hk.symm
        subst this
        exact ⟨by norm_num [initialRetryDelay], by norm_num [initialRetryDelay, maxRetries]⟩
      | 1, hk =>
        have : w = 4 := by simpa using hk.symm
        subst this
        exact ⟨by norm_num [initialRetryDelay], by norm_num [initialRetryDelay, maxRetries]⟩
  · rw [htrace]; rfl
  · rw [htrace]; rfl
  · rw [htrace]; rfl
  · simp [chat, chatLoop, maxIterations, callWithRetry, maxRetries, initialRetryDelay,
      hr0, hr1, hr2, ChatState.afterCall, ChatState.emitChunk, ChatState.emit]

/-- C5 witness: a provider that is always rate limited. -/
theorem backoff_policy_witness :
    (∀ (p : Provider) (st : ChatState),
      (∀ k w, (turnWaits p st).get? k = some w →
        w = initialRetryDelay * 2 ^ k ∧
        w ≤ initialRetryDelay * 2 ^ (maxRetries - 2)) ∧
      List.Chain' (· ≤ ·) (turnWaits p st)) ∧
    (chat (fun _ => .rateLimit "rl") (fun _ _ => .ok Json.null) "hi" none).trace =
      [Ev.apiCall, Ev.chunk (.message (retryNotice 2)), Ev.sleep 2,
       Ev.apiCall, Ev.chunk (.message (retryNotice 4)), Ev.sleep 4,
       Ev.apiCall, Ev.chunk (.error rateLimitMsg)] ∧
    traceWaits (chat (fun _ => .rateLimit "rl")
      (fun _ _ => .ok Json.null) "hi" none).trace = [2, 4] ∧
    countApiCalls (chat (fun _ => .rateLimit "rl")
      (fun _ _ => .ok Json.null) "hi" none).trace = maxRetries ∧
    (chat (fun _ => .rateLimit "rl") (fun _ _ => .ok Json.null) "hi" none).trace.getLast? =
      some (Ev.chunk (.error rateLimitMsg)) ∧
    (chat (fun _ => .rateLimit "rl") (fun _ _ => .ok Json.null) "hi" none).raised = none :=
  backoff_policy (fun _ => .rateLimit "rl") (fun _ _ => .ok Json.null) "hi" none
    "rl" "rl" "rl" rfl rfl rfl

theorem mem_chatChunks {tr : List Ev} {c : Chunk} (hc : c ∈ tr.filterMap Ev.chunkOf) :
    Ev.chunk c ∈ tr := by
  obtain ⟨e, he, hec⟩ := List.mem_filterMap.mp hc
  cases e <;> simp [Ev.chunkOf] at hec
  rwa [hec] at he

theorem lastWorkflow_eq_none :
    ∀ {chunks : List Chunk}, (∀ c ∈ chunks, ∀ w, c ≠ Chunk.workflow w) →
    ∀ (acc : Option Json),
      chunks.foldl (fun acc c => match c with | .workflow w => some w | _ => acc) acc = acc
  | [], _, acc => rfl
  | c :: rest, h, acc => by
    have hc := h c (by simp)
    have htail : ∀ c' ∈ rest, ∀ w, c' ≠ Chunk.workflow w :=
      fun c' hc' => h c' (List.mem_cons_of_mem _ hc')
    have hrec := lastWorkflow_eq_none htail acc
    cases c <;> simp_all [List.foldl_cons]

/-- C4 counterexample: a turn whose stop reason is unrecognized (`"refusal"`)
makes the run return silently — the stream carries no error event at all and
ends with `done`, where the claim demands an `Error` emission. -/
theorem unknown_stop_reason_silent_cex :
    hasErrorSSE (event_generator (chat (fun _ => .ok ⟨[.text "x"], "refusal"⟩)
      (fun _ _ => .ok Json.null) "hi" none)) = false ∧
    event_generator (chat (fun _ => .ok ⟨[.text "x"], "refusal"⟩)
      (fun _ _ => .ok Json.null) "hi" none) =
      [SSE.start, SSE.message "x", SSE.done] :=
  ⟨rfl, rfl⟩

/-- An SSE stream whose service run finished without raising and yielded only
plain content chunks has no error event and ends with `done`. -/
theorem event_generator_clean {out : ChatOut} (hr : out.raised = none)
    (hc : ∀ c ∈ chatChunks out, c.isErrorChunk = false ∧ ∀ w, c ≠ Chunk.workflow w) :
    hasErrorSSE (event_generator out) = false ∧
    (event_generator out).getLast? = some SSE.done := by
  have hlw : lastWorkflow (chatChunks out) = none :=
    lastWorkflow_eq_none (fun c h => (hc c h).2) none
  have hev : event_generator out =
      SSE.start :: (chatChunks out).flatMap translateChunk ++ [SSE.done] := by
    simp [event_generator, hr, hlw]
  rw [hev]
  constructor
  · rw [hasErrorSSE, List.any_eq_false]
    intro e he
    rcases List.mem_cons.mp he with rfl | he'
    · simp [SSE.isError]
    rcases List.mem_append.mp he' with hb | ht
    · obtain ⟨c, hcm, hec⟩ := List.mem_flatMap.mp hb
      intro herr
      have := translate_error hec herr
      rw [(hc c hcm).1] at this
      exact Bool.false_ne_true this
    · rcases List.mem_singleton.mp ht with rfl
      simp [SSE.isError]
  · rw [show SSE.start :: (chatChunks out).flatMap translateChunk ++ [SSE.done] =
      (SSE.start :: (chatChunks out).flatMap translateChunk) ++ [SSE.done] from by simp]
    exact List.getLast?_concat _

/-- C4 (amended). A turn whose stop reason is none of `end_turn`, `tool_use`,
`max_tokens` terminates the run immediately — exactly one provider call, no
further loop iteration, the service generator does not raise — but no `Error`
event is emitted anywhere: the code only logs a warning and returns, and the
transport stream ends with a plain `done`. -/
theorem unknown_stop_reason_terminates (provider : Provider) (tex : ToolExec)
    (um : String) (h : Option (List Msg)) (resp : ProviderResponse)
    (hp0 : provider 0 = .ok resp)
    (hs1 : resp.stopReason ≠ "end_turn") (hs2 : resp.stopReason ≠ "tool_use")
    (hs3 : resp.stopReason ≠ "max_tokens") :
    countApiCalls (chat provider tex um h).trace = 1 ∧
    countErrorChunks (chat provider tex um h).trace = 0 ∧
    (chat provider tex um h).raised = none ∧
    hasErrorSSE (event_generator (chat provider tex um h)) = false ∧
    (event_generator (chat provider tex um h)).getLast? = some SSE.done := by
  obtain ⟨evs2, pairs2, hp1, hp2, hp3, hp4, hp5⟩ :=
    processBlocks_spec tex resp.content []
      ((ChatState.mk [] ((historyTarget h).1 ++ [⟨"user", .str um⟩]) "" 0).afterCall)
  have key : chat provider tex um h =
      ChatOut.mk
        (processBlocks tex resp.content []
          ((ChatState.mk [] ((historyTarget h).1 ++ [⟨"user", .str um⟩]) "" 0).afterCall)).trace
        (processBlocks tex resp.content []
          ((ChatState.mk [] ((historyTarget h).1 ++ [⟨"user", .str um⟩]) "" 0).afterCall)).messages
        none (historyTarget h).2 := by
    rcases hh : historyTarget h with ⟨initial, aliased⟩
    simp [chat, hh, chatLoop, maxIterations, callWithRetry, maxRetries, initialRetryDelay,
      hp0, hs1, hs2, hs3]
  have htr : (chat provider tex um h).trace = Ev.apiCall :: evs2 := by
    rw [key]
    rw [hp1]
    simp [ChatState.afterCall]
  have hcontent : ∀ e ∈ evs2, e.isContentEv = true := hp4
  have hclean : chat provider tex um h =
      ChatOut.mk
        (processBlocks tex resp.content []
          ((ChatState.mk [] ((historyTarget h).1 ++ [⟨"user", .str um⟩]) "" 0).afterCall)).trace
        (processBlocks tex resp.content []
          ((ChatState.mk [] ((historyTarget h).1 ++ [⟨"user", .str um⟩]) "" 0).afterCall)).messages
        none (historyTarget h).2 →
      (chat provider tex um h).trace = Ev.apiCall :: evs2 →
      (∀ e ∈ evs2, e.isContentEv = true) →
      ∀ c ∈ chatChunks (chat provider tex um h),
        c.isErrorChunk = false ∧ ∀ w, c ≠ Chunk.workflow w := by
    intro _ htr' hcont c hc
    rw [chatChunks, htr'] at hc
    have hmem : Ev.chunk c ∈ evs2 :=
      mem_chatChunks (show c ∈ evs2.filterMap Ev.chunkOf from by simpa [Ev.chunkOf] using hc)
    have hcc := hcont _ hmem
    cases c <;> simp_all [Ev.isContentEv, Chunk.isErrorChunk]
  refine ⟨?_, ?_, ?_, ?_, ?_⟩
  · rw [htr, show Ev.apiCall :: evs2 = [Ev.apiCall] ++ evs2 from rfl, countApiCalls_append,
      countApiCalls_eq_zero fun e he => contentEv_not_api (hcontent e he)]
    rfl
  · rw [htr, show Ev.apiCall :: evs2 = [Ev.apiCall] ++ evs2 from rfl, countErrorChunks_append,
      countErrorChunks_eq_zero fun e he => contentEv_not_error (hcontent e he)]
    rfl
  · rw [key]
  · exact (event_generator_clean (by rw [key]) (hclean key htr hcontent)).1
  · exact (event_generator_clean (by rw [key]) (hclean key htr hcontent)).2

/-- C4 witness: one `"refusal"` turn. -/
theorem unknown_stop_reason_terminates_witness :
    countApiCalls (chat (fun _ => .ok ⟨[.text "x"], "refusal"⟩)
      (fun _ _ => .ok Json.null) "hi" none).trace = 1 ∧
    countErrorChunks (chat (fun _ => .ok ⟨[.text "x"], "refusal"⟩)
      (fun _ _ => .ok Json.null) "hi" none).trace = 0 ∧
    (chat (fun _ => .ok ⟨[.text "x"], "refusal"⟩)
      (fun _ _ => .ok Json.null) "hi" none).raised = none ∧
    hasErrorSSE (event_generator (chat (fun _ => .ok ⟨[.text "x"], "refusal"⟩)
      (fun _ _ => .ok Json.null) "hi" none)) = false ∧
    (event_generator (chat (fun _ => .ok ⟨[.text "x"], "refusal"⟩)
      (fun _ _ => .ok Json.null) "hi" none)).getLast? = some SSE.done :=
  unknown_stop_reason_terminates (fun _ => .ok ⟨[.text "x"], "refusal"⟩)
    (fun _ _ => .ok Json.null) "hi" none ⟨[.text "x"], "refusal"⟩ rfl
    (by decide) (by decide) (by decide)

/-- C3 counterexample: with a tool executor that always raises, the run
appends exactly one tool-result block, and no appended tool-result block
carries `is_error: true` — the code never sets that key, so the failure is
not marked by an `is_error` flag as claimed. -/
theorem tool_failure_no_error_flag_cex :
    (msgsToolResultBlocks (chat
      (fun n => if n = 0
        then .ok ⟨[.toolUse "toolu_1" "search_nodes" [("query", Json.str "x")]], "tool_use"⟩
        else .ok ⟨[.text "ok"], "end_turn"⟩)
      (fun _ _ => .exc "boom") "hi" none).messages).length = 1 ∧
    anyToolResultFlagged (chat
      (fun n => if n = 0
        then .ok ⟨[.toolUse "toolu_1" "search_nodes" [("query", Json.str "x")]], "tool_use"⟩
        else .ok ⟨[.text "ok"], "end_turn"⟩)
      (fun _ _ => .exc "boom") "hi" none).messages = false :=
  ⟨rfl, rfl⟩

/-- C3 (amended). A tool execution failure never terminates the run: the
raised exception is serialized as the `{"error": message}` result string,
wrapped in a tool-result block carrying no `is_error` key (`isError = none`),
appended to `messages` and fed back to the model, and with a `tool_use` stop
reason the loop proceeds to the next provider call — no error chunk is
emitted and the generator does not raise. -/
theorem tool_failure_nonfatal (tex : ToolExec) (e um : String)
    (inp : List (String × Json))
    (hfail : tex "search_nodes" (convert_keys_to_snake_case inp) = .exc e) :
    (chat (fun n => if n = 0
        then .ok ⟨[.toolUse "toolu_1" "search_nodes" inp], "tool_use"⟩
        else .ok ⟨[.text "ok"], "end_turn"⟩) tex um none).messages =
      [⟨"user", .str um⟩,
       ⟨"assistant", .blocks [.toolUse "toolu_1" "search_nodes" inp]⟩,
       ⟨"user", .blocks [.toolResult "toolu_1"
         ((Json.obj [("error", Json.str e)]).dumps) none]⟩] ∧
    (chat (fun n => if n = 0
        then .ok ⟨[.toolUse "toolu_1" "search_nodes" inp], "tool_use"⟩
        else .ok ⟨[.text "ok"], "end_turn"⟩) tex um none).trace =
      [Ev.apiCall, Ev.chunk (.toolUse "search_nodes" inp),
       Ev.chunk (.toolResult "search_nodes" ((Json.obj [("error", Json.str e)]).dumps)),
       Ev.apiCall, Ev.chunk (.message "ok")] ∧
    countErrorChunks (chat (fun n => if n = 0
        then .ok ⟨[.toolUse "toolu_1" "search_nodes" inp], "tool_use"⟩
        else .ok ⟨[.text "ok"], "end_turn"⟩) tex um none).trace = 0 ∧
    (chat (fun n => if n = 0
        then .ok ⟨[.toolUse "toolu_1" "search_nodes" inp], "tool_use"⟩
        else .ok ⟨[.text "ok"], "end_turn"⟩) tex um none).raised = none := by
  have hmem : "search_nodes" ∈ knownTools := by decide
  have hexec : execute_tool tex "search_nodes" inp =
      (Json.obj [("error", Json.str e)]).dumps := by
    simp [execute_tool, hmem, hfail]
  have hacc : ("" : String) ++ "ok" = "ok" := rfl
  have hex : extract_workflow "ok" = none := rfl
  refine ⟨?_, ?_, ?_, ?_⟩ <;>
    simp [chat, chatLoop, maxIterations, callWithRetry, maxRetries, initialRetryDelay,
      processBlocks, hexec, endTurnFinish, hacc, hex, ChatState.afterCall,
      ChatState.emitChunk, ChatState.emit, historyTarget, countErrorChunks,
      List.filter_cons, Ev.isErrorChunkEv, Chunk.isErrorChunk]

/-- C3 witness: an executor that always raises `"boom"`. -/
theorem tool_failure_nonfatal_witness :
    (chat (fun n => if n = 0
        then .ok ⟨[.toolUse "toolu_1" "search_nodes" [("query", Json.str "x")]], "tool_use"⟩
        else .ok ⟨[.text "ok"], "end_turn"⟩) (fun _ _ => .exc "boom") "hi" none).messages =
      [⟨"user", .str "hi"⟩,
       ⟨"assistant", .blocks [.toolUse "toolu_1" "search_nodes" [("query", Json.str "x")]]⟩,
       ⟨"user", .blocks [.toolResult "toolu_1"
         ((Json.obj [("error", Json.str "boom")]).dumps) none]⟩] ∧
    (chat (fun n => if n = 0
        then .ok ⟨[.toolUse "toolu_1" "search_nodes" [("query", Json.str "x")]], "tool_use"⟩
        else .ok ⟨[.text "ok"], "end_turn"⟩) (fun _ _ => .exc "boom") "hi" none).trace =
      [Ev.apiCall, Ev.chunk (.toolUse "search_nodes" [("query", Json.str "x")]),
       Ev.chunk (.toolResult "search_nodes" ((Json.obj [("error", Json.str "boom")]).dumps)),
       Ev.apiCall, Ev.chunk (.message "ok")] ∧
    countErrorChunks (chat (fun n => if n = 0
        then .ok ⟨[.toolUse "toolu_1" "search_nodes" [("query", Json.str "x")]], "tool_use"⟩
        else .ok ⟨[.text "ok"], "end_turn"⟩) (fun _ _ => .exc "boom") "hi" none).trace = 0 ∧
    (chat (fun n => if n = 0
        then .ok ⟨[.toolUse "toolu_1" "search_nodes" [("query", Json.str "x")]], "tool_use"⟩
        else .ok ⟨[.text "ok"], "end_turn"⟩) (fun _ _ => .exc "boom") "hi" none).raised = none :=
  tool_failure_nonfatal (fun _ _ => .exc "boom") "boom" "hi" [("query", Json.str "x")] rfl

/-- C6. The fallback scan attempts the regex candidates in document order, not
from largest to smallest: on a text holding two parseable candidate objects
with the marker key, the smaller, earlier one wins even though the later one
is larger, parses, and has `"nodes"` as a top-level key — contradicting the
code's own comment ("Find the largest JSON object that contains 'nodes'"). -/
theorem extract_first_candidate_not_largest :
    extract_workflow
        "Result: \x7b\"nodes\": 1\x7d then \x7b\"nodes\": 2, \"pad\": \"xxxxxxxxxxxxxxxx\"\x7d" =
      some (Json.obj [("nodes", Json.num 1)]) ∧
    candidatesOf
        "Result: \x7b\"nodes\": 1\x7d then \x7b\"nodes\": 2, \"pad\": \"xxxxxxxxxxxxxxxx\"\x7d" =
      ["\x7b\"nodes\": 1\x7d", "\x7b\"nodes\": 2, \"pad\": \"xxxxxxxxxxxxxxxx\"\x7d"] ∧
    json_loads "\x7b\"nodes\": 2, \"pad\": \"xxxxxxxxxxxxxxxx\"\x7d" =
      some (Json.obj [("nodes", Json.num 2), ("pad", Json.str "xxxxxxxxxxxxxxxx")]) ∧
    (Json.obj [("nodes", Json.num 2), ("pad", Json.str "xxxxxxxxxxxxxxxx")]).hasKey "nodes"
      = true ∧
    ("\x7b\"nodes\": 1\x7d" : String).length <
      ("\x7b\"nodes\": 2, \"pad\": \"xxxxxxxxxxxxxxxx\"\x7d" : String).length :=
  ⟨rfl, rfl, rfl, rfl, by decide⟩

/-- The artifact chunks of the per-node loop, without the pauses. -/
def nodeChunks : List Json → Nat → Nat → List Chunk
  | [], _, _ => []
  | n :: rest, i, tot => Chunk.workflowNode n i tot :: nodeChunks rest (i + 1) tot

theorem filterMap_chunkOf_nodeChunkEvs :
    ∀ (ns : List Json) (i tot : Nat),
    (nodeChunkEvs ns i tot).filterMap Ev.chunkOf = nodeChunks ns i tot
  | [], _, _ => rfl
  | n :: rest, i, tot => by
    simp [nodeChunkEvs, nodeChunks, Ev.chunkOf,
      filterMap_chunkOf_nodeChunkEvs rest (i + 1) tot]

theorem flatMap_translate_nodeChunks :
    ∀ (ns : List Json) (i tot : Nat),
    (nodeChunks ns i tot).flatMap translateChunk = nodeSSEs ns i tot
  | [], _, _ => rfl
  | n :: rest, i, tot => by
    simp [nodeChunks, nodeSSEs, translateChunk, flatMap_translate_nodeChunks rest (i + 1) tot]

theorem lastWorkflow_append_workflow (xs : List Chunk) (w : Json) :
    lastWorkflow (xs ++ [Chunk.workflow w]) = some w := by
  simp [lastWorkflow, List.foldl_append]

/-- When every element of the node list is a dict, the per-node loop streams
one `workflow_node` chunk per element (in order, with index and total) and
then the full `workflow` chunk, raising nothing. -/
theorem streamNodes_objs (w : Json) :
    ∀ (ns : List Json) (i tot : Nat) (st : ChatState), (∀ n ∈ ns, n.isObj = true) →
    streamNodes w ns i tot st =
      ⟨st.trace ++ nodeChunkEvs ns i tot ++ [Ev.chunk (.workflow w)], st.messages, none, false⟩
  | [], i, tot, st, _ => by
    simp [streamNodes, nodeChunkEvs, ChatState.emitChunk, ChatState.emit]
  | n :: rest, i, tot, st, h => by
    have hn := h n (by simp)
    rcases n with _ | b | v | s | s | xs | kvs <;> simp [Json.isObj] at hn
    have hrest : ∀ n' ∈ rest, n'.isObj = true := fun n' hn' => h n' (by simp [hn'])
    rw [streamNodes, streamNodes_objs w rest (i + 1) tot _ hrest]
    simp [nodeChunkEvs, ChatState.emitChunk, ChatState.emit]

theorem tryCandidates_isObj :
    ∀ (cs : List (List Char)) (w : Json), tryCandidates cs = some w →
      w.isObj = true ∧ w.hasKey "nodes" = true
  | [], w, h => by simp [tryCandidates] at h
  | c :: rest, w, h => by
    rw [tryCandidates] at h
    rcases hl : json_loads (String.mk c) with _ | w'
    · rw [hl] at h
      exact tryCandidates_isObj rest w h
    · rw [hl] at h
      dsimp only at h
      by_cases hcond : w'.isObj = true ∧ w'.hasKey "nodes" = true
      · rw [if_pos hcond] at h
        cases h
        exact hcond
      · rw [if_neg hcond] at h
        exact tryCandidates_isObj rest w h

theorem fencedExtract_isObj {cs : List Char} {w : Json}
    (h : fencedExtract cs = some w) : w.isObj = true ∧ w.hasKey "nodes" = true := by
  rw [fencedExtract] at h
  split at h
  next i hfind =>
    split at h
    next w' hload =>
      split at h
      next hcond => cases h; exact hcond
      next => cases h
    next => cases h
  next => cases h

theorem extract_workflow_isObj {t : String} {w : Json}
    (h : extract_workflow t = some w) : w.isObj = true ∧ w.hasKey "nodes" = true := by
  rw [extract_workflow] at h
  split at h
  next w' heq => cases h; exact fencedExtract_isObj heq
  next =>
    split at h
    · exact tryCandidates_isObj _ _ h
    · cases h

theorem extract_workflow_truthy {t : String} {w : Json}
    (h : extract_workflow t = some w) : w.pyTruthy = true := by
  obtain ⟨ho, hk⟩ := extract_workflow_isObj h
  rcases w with _ | b | v | s | s | xs | kvs <;> simp [Json.isObj] at ho
  rcases kvs with _ | ⟨kv, rest⟩
  · simp [Json.hasKey] at hk
  · simp [Json.pyTruthy]

/-- C7 counterexample: an `end_turn` artifact whose `"nodes"` list holds
non-dict elements (`[1, 2, 3]`) does not produce one chunk event per element:
the log line `node.get('name')` raises `AttributeError` before the first node
chunk, the generator escapes, and the stream ends in a stream error — with
zero `workflow_node` events and no `done`. -/
theorem artifact_nondict_nodes_cex :
    extract_workflow "```json\n\x7b\"nodes\": [1, 2, 3]\x7d\n```" =
      some (Json.obj [("nodes", Json.arr [Json.num 1, Json.num 2, Json.num 3])]) ∧
    (chat (fun _ => .ok ⟨[.text "```json\n\x7b\"nodes\": [1, 2, 3]\x7d\n```"], "end_turn"⟩)
      (fun _ _ => .ok Json.null) "hi" none).raised = some "AttributeError" ∧
    countWorkflowNodeSSE (event_generator
      (chat (fun _ => .ok ⟨[.text "```json\n\x7b\"nodes\": [1, 2, 3]\x7d\n```"], "end_turn"⟩)
        (fun _ _ => .ok Json.null) "hi" none)) = 0 ∧
    (event_generator
      (chat (fun _ => .ok ⟨[.text "```json\n\x7b\"nodes\": [1, 2, 3]\x7d\n```"], "end_turn"⟩)
        (fun _ _ => .ok Json.null) "hi" none)).getLast? =
      some (SSE.error "Stream error: AttributeError") :=
  ⟨rfl, rfl, rfl, rfl⟩

/-- C7 (amended). For a turn that stops with `end_turn` after one text block:
if and only if the accumulated assistant text contains an artifact — and
provided every element of its `"nodes"` list is a dict (otherwise the
generator raises, see the counterexample) — the stream carries one
`workflow_clear`, then exactly one `workflow_node` event per element in
document order (each with the element, its index and the total), then exactly
one `workflow` event with the full parsed object, before `done`; when no
artifact is found, no artifact event is emitted and the run still ends with
`done`. -/
theorem artifact_events_iff (provider : Provider) (tex : ToolExec) (um : String)
    (h : Option (List Msg)) (t : String)
    (hp0 : provider 0 = .ok ⟨[.text t], "end_turn"⟩) :
    (∀ w ns, extract_workflow t = some w →
      w.dictGet "nodes" (Json.arr []) = Json.arr ns →
      (∀ n ∈ ns, n.isObj = true) →
      event_generator (chat provider tex um h) =
        SSE.start :: SSE.message t :: SSE.workflowClear ::
          (nodeSSEs ns 0 ns.length ++ [SSE.workflow w, SSE.done])) ∧
    (extract_workflow t = none →
      event_generator (chat provider tex um h) = [SSE.start, SSE.message t, SSE.done]) := by
  have hemp : ("" : String) ++ t = t := by
    cases t
    rfl
  constructor
  · intro w ns hw hget hobj
    have htru := extract_workflow_truthy hw
    have hsn : ∀ st, streamNodes w ns 0 ns.length st =
        ⟨st.trace ++ nodeChunkEvs ns 0 ns.length ++ [Ev.chunk (.workflow w)],
          st.messages, none, false⟩ :=
      fun st => streamNodes_objs w ns 0 ns.length st hobj
    have hc : chat provider tex um h =
        ChatOut.mk
          (Ev.apiCall :: Ev.chunk (.message t) :: Ev.chunk .workflowClear ::
            (nodeChunkEvs ns 0 ns.length ++ [Ev.chunk (.workflow w)]))
          ((historyTarget h).1 ++ [⟨"user", .str um⟩])
          none (historyTarget h).2 := by
      rcases hh : historyTarget h with ⟨initial, aliased⟩
      simp [chat, hh, chatLoop, maxIterations, callWithRetry, maxRetries, initialRetryDelay,
        hp0, processBlocks, ChatState.afterCall, ChatState.emitChunk, ChatState.emit,
        endTurnFinish, hemp, hw, htru, hget, Json.pyIter, hsn]
    have hchunks : chatChunks (chat provider tex um h) =
        Chunk.message t :: Chunk.workflowClear ::
          (nodeChunks ns 0 ns.length ++ [Chunk.workflow w]) := by
      rw [chatChunks, hc]
      simp [Ev.chunkOf, List.filterMap_append, filterMap_chunkOf_nodeChunkEvs]
    have hlast : lastWorkflow (chatChunks (chat provider tex um h)) = some w := by
      rw [hchunks,
        show Chunk.message t :: Chunk.workflowClear ::
            (nodeChunks ns 0 ns.length ++ [Chunk.workflow w]) =
          (Chunk.message t :: Chunk.workflowClear :: nodeChunks ns 0 ns.length) ++
            [Chunk.workflow w] from by simp,
        lastWorkflow_append_workflow]
    have hraised : (chat provider tex um h).raised = none := by rw [hc]
    rw [event_generator, hraised, hlast, hchunks]
    simp [translateChunk, List.flatMap_append, flatMap_translate_nodeChunks, htru]
  · intro hw
    have hc : chat provider tex um h =
        ChatOut.mk [Ev.apiCall, Ev.chunk (.message t)]
          ((historyTarget h).1 ++ [⟨"user", .str um⟩])
          none (historyTarget h).2 := by
      rcases hh : historyTarget h with ⟨initial, aliased⟩
      simp [chat, hh, chatLoop, maxIterations, callWithRetry, maxRetries, initialRetryDelay,
        hp0, processBlocks, ChatState.afterCall, ChatState.emitChunk, ChatState.emit,
        endTurnFinish, hemp, hw]
    rw [event_generator, show (chat provider tex um h).raised = none from by rw [hc]]
    rw [show chatChunks (chat provider tex um h) = [Chunk.message t] from by
      rw [chatChunks, hc]; rfl]
    rfl

/-- C7 witness: a fenced two-node workflow. -/
theorem artifact_events_iff_witness :
    event_generator (chat
      (fun _ => .ok ⟨[.text
        "```json\n\x7b\"name\": \"W\", \"nodes\": [\x7b\"name\": \"A\"\x7d, \x7b\"name\": \"B\"\x7d]\x7d\n```"],
        "end_turn"⟩)
      (fun _ _ => .ok Json.null) "hi" none) =
      SSE.start :: SSE.message
        "```json\n\x7b\"name\": \"W\", \"nodes\": [\x7b\"name\": \"A\"\x7d, \x7b\"name\": \"B\"\x7d]\x7d\n```" ::
        SSE.workflowClear ::
        (nodeSSEs [Json.obj [("name", Json.str "A")], Json.obj [("name", Json.str "B")]] 0 2 ++
          [SSE.workflow (Json.obj [("name", Json.str "W"),
            ("nodes", Json.arr [Json.obj [("name", Json.str "A")],
              Json.obj [("name", Json.str "B")]])]), SSE.done]) :=
  (artifact_events_iff
    (fun _ => .ok ⟨[.text
      "```json\n\x7b\"name\": \"W\", \"nodes\": [\x7b\"name\": \"A\"\x7d, \x7b\"name\": \"B\"\x7d]\x7d\n```"],
      "end_turn"⟩)
    (fun _ _ => .ok Json.null) "hi" none
    "```json\n\x7b\"name\": \"W\", \"nodes\": [\x7b\"name\": \"A\"\x7d, \x7b\"name\": \"B\"\x7d]\x7d\n```"
    rfl).1
    (Json.obj [("name", Json.str "W"),
      ("nodes", Json.arr [Json.obj [("name", Json.str "A")], Json.obj [("name", Json.str "B")]])])
    [Json.obj [("name", Json.str "A")], Json.obj [("name", Json.str "B")]]
    rfl rfl (by decide)

theorem translate_toolResult {c : Chunk} {name : String} {ok : Bool}
    (h : SSE.toolResult name ok ∈ translateChunk c) : ok = true := by
  cases c <;> simp_all [translateChunk]

/-- C10. Every `tool_result` chunk is forwarded to the client as a
`tool_result` SSE event whose `success` field is `True` unconditionally —
also when the tool execution failed and the result payload is the serialized
error object, so tool failure is never visible in that flag. -/
theorem tool_result_ok_always_true (provider : Provider) (tex : ToolExec)
    (um : String) (h : Option (List Msg)) (name : String) (ok : Bool)
    (hm : SSE.toolResult name ok ∈ event_generator (chat provider tex um h)) :
    ok = true := by
  have hbody : ∀ chunks : List Chunk,
      SSE.toolResult name ok ∈ chunks.flatMap translateChunk → ok = true := by
    intro chunks hmem
    obtain ⟨c, _, hc⟩ := List.mem_flatMap.mp hmem
    exact translate_toolResult hc
  rcases hr : (chat provider tex um h).raised with _ | e
  · simp only [event_generator, hr] at hm
    rcases List.mem_cons.mp hm with heq | hm'
    · exact absurd heq (by simp)
    rcases List.mem_append.mp hm' with hm'' | hdone
    · rcases List.mem_append.mp hm'' with hb | ht
      · exact hbody _ hb
      · rcases hlw : lastWorkflow (chatChunks (chat provider tex um h)) with _ | w <;>
          rw [hlw] at ht
        · simp at ht
        · by_cases htr : w.pyTruthy <;> simp [htr] at ht
    · rcases List.mem_singleton.mp hdone with heq
      exact absurd heq (by simp)
  · simp only [event_generator, hr] at hm
    rcases List.mem_cons.mp hm with heq | hm'
    · exact absurd heq (by simp)
    rcases List.mem_append.mp hm' with hb | herr
    · exact hbody _ hb
    · rcases List.mem_singleton.mp herr with heq
      exact absurd heq (by simp)

/-- C10 witness: a failing tool still reports `success = True`. -/
theorem tool_result_ok_always_true_witness :
    SSE.toolResult "search_nodes" true ∈ event_generator (chat
      (fun n => if n = 0
        then .ok ⟨[.toolUse "toolu_9" "search_nodes" [("query", Json.str "q")]], "tool_use"⟩
        else .ok ⟨[.text "the search failed"], "end_turn"⟩)
      (fun _ _ => .exc "connection refused") "build me a workflow" none) ∧
    true = true :=
  ⟨by decide,
   tool_result_ok_always_true
    (fun n => if n = 0
      then .ok ⟨[.toolUse "toolu_9" "search_nodes" [("query", Json.str "q")]], "tool_use"⟩
      else .ok ⟨[.text "the search failed"], "end_turn"⟩)
    (fun _ _ => .exc "connection refused") "build me a workflow" none
    "search_nodes" true (by decide)⟩

/-- C2 witness for the amended ordering theorem: a two-turn tool-use run. -/
theorem event_stream_order_witness :
    (event_generator (chat
      (fun n => if n = 0
        then .ok ⟨[.toolUse "toolu_2" "search_templates" [("query", Json.str "q")]], "tool_use"⟩
        else .ok ⟨[.text "done"], "end_turn"⟩)
      (fun _ _ => .ok (Json.obj [("results", Json.arr [])])) "hello" none)).head? =
      some SSE.start ∧
    noCallAfterArtifact (chat
      (fun n => if n = 0
        then .ok ⟨[.toolUse "toolu_2" "search_templates" [("query", Json.str "q")]], "tool_use"⟩
        else .ok ⟨[.text "done"], "end_turn"⟩)
      (fun _ _ => .ok (Json.obj [("results", Json.arr [])])) "hello" none).trace = true ∧
    ((chat
      (fun n => if n = 0
        then .ok ⟨[.toolUse "toolu_2" "search_templates" [("query", Json.str "q")]], "tool_use"⟩
        else .ok ⟨[.text "done"], "end_turn"⟩)
      (fun _ _ => .ok (Json.obj [("results", Json.arr [])])) "hello" none).raised = none →
      (event_generator (chat
        (fun n => if n = 0
          then .ok ⟨[.toolUse "toolu_2" "search_templates" [("query", Json.str "q")]], "tool_use"⟩
          else .ok ⟨[.text "done"], "end_turn"⟩)
        (fun _ _ => .ok (Json.obj [("results", Json.arr [])])) "hello" none)).getLast? =
        some SSE.done ∧
      countDone (event_generator (chat
        (fun n => if n = 0
          then .ok ⟨[.toolUse "toolu_2" "search_templates" [("query", Json.str "q")]], "tool_use"⟩
          else .ok ⟨[.text "done"], "end_turn"⟩)
        (fun _ _ => .ok (Json.obj [("results", Json.arr [])])) "hello" none)) = 1) ∧
    (∀ e, (chat
      (fun n => if n = 0
        then .ok ⟨[.toolUse "toolu_2" "search_templates" [("query", Json.str "q")]], "tool_use"⟩
        else .ok ⟨[.text "done"], "end_turn"⟩)
      (fun _ _ => .ok (Json.obj [("results", Json.arr [])])) "hello" none).raised = some e →
      (event_generator (chat
        (fun n => if n = 0
          then .ok ⟨[.toolUse "toolu_2" "search_templates" [("query", Json.str "q")]], "tool_use"⟩
          else .ok ⟨[.text "done"], "end_turn"⟩)
        (fun _ _ => .ok (Json.obj [("results", Json.arr [])])) "hello" none)).getLast? =
        some (SSE.error ("Stream error: " ++ e))) :=
  event_stream_order
    (fun n => if n = 0
      then .ok ⟨[.toolUse "toolu_2" "search_templates" [("query", Json.str "q")]], "tool_use"⟩
      else .ok ⟨[.text "done"], "end_turn"⟩)
    (fun _ _ => .ok (Json.obj [("results", Json.arr [])])) "hello" none

/-- C9 witness: a one-message history list. -/
theorem history_aliased_and_extended_witness :
    (chat (fun _ => ProviderResult.err "down") (fun _ _ => .ok Json.null) "hi"
      (some [⟨"user", .str "old"⟩])).aliasedHistory = true ∧
    (∃ rest, (chat (fun _ => ProviderResult.err "down") (fun _ _ => .ok Json.null) "hi"
      (some [⟨"user", .str "old"⟩])).messages =
      [⟨"user", .str "old"⟩] ++ (⟨"user", .str "hi"⟩ :: rest)) ∧
    ([⟨"user", MsgContent.str "old"⟩] : List Msg).length <
      (chat (fun _ => ProviderResult.err "down") (fun _ _ => .ok Json.null) "hi"
        (some [⟨"user", .str "old"⟩])).messages.length :=
  history_aliased_and_extended (fun _ => ProviderResult.err "down")
    (fun _ _ => .ok Json.null) "hi" [⟨"user", .str "old"⟩] (by simp)
